import Mathlib

/-! RediSearch configuration registry (`src/config.c`)

A shallow embedding of `config.c`: the per-option setters and getters, the
descriptor table `RSGlobalConfigOptions`, `findConfigVar`, `ReadConfig`,
`dumpConfigOption`, `RSConfig_DumpProto` and `RSConfig_SetOption`.

Conventions of the embedding.

* A `RedisModuleString` is a Lean `String` (binary safe: it may hold a NUL).
  A `const char *` is the `String` of the characters before the terminating
  NUL. `RedisModule_StringPtrLen tok NULL` is therefore the part of `tok`
  before its first NUL character.
* The pair `argv`, `argc` is a `List String`; `argc` is its length.
* `long long` values are `Int`s between `LLONG_MIN` and `LLONG_MAX`; `size_t`
  is 64 bits wide and a store of a `long long` into a `size_t` field is
  reduction modulo `2 ^ 64`.
* A function whose C execution would hit a failed `assert`, read `argv` out of
  bounds or call a NULL function pointer returns `none`.
* `printf` to standard output is not modelled.
-/

set_option autoImplicit false

namespace RediSearch

/-! ## Constants and types from headers -/

def REDISMODULE_OK : Int := 0

def REDISMODULE_ERR : Int := 1

def LLONG_MIN : Int := -9223372036854775808

def LLONG_MAX : Int := 9223372036854775807

/-- Number of values of a 64-bit `size_t`. -/
def SIZE_T_RANGE : Int := 18446744073709551616

/-- Conversion of a `long long` to `size_t` on assignment. -/
def toSizeT (v : Int) : Int := v % SIZE_T_RANGE

/-- Modelled from the spec: the enumerated timeout policy of `config.h`
(missing from the sources), with the two values `config.c` assigns. -/
inductive RSTimeoutPolicy where
  | TimeoutPolicy_Return
  | TimeoutPolicy_Fail
  deriving DecidableEq, Repr

open RSTimeoutPolicy

/-- Modelled from the spec: the `RSConfig` struct of `config.h` (missing from
the sources), with the fields `config.c` reads or writes. The two path fields
are nullable pointers. -/
structure RSConfig where
  concurrentMode : Int
  extLoad : Option String
  frisoIni : Option String
  enableGC : Int
  minTermPrefix : Int
  maxPrefixExpansions : Int
  queryTimeoutMS : Int
  cursorReadSize : Int
  cursorMaxIdle : Int
  timeoutPolicy : RSTimeoutPolicy
  maxDocTableSize : Int
  searchPoolSize : Int
  indexPoolSize : Int
  poolSizeNoAuto : Int
  gcScanSize : Int
  minPhoneticTermLen : Int
  deriving DecidableEq, Repr

/-- Modelled from the spec: what `config.c` takes from the host runtime and
from `config.h`, both missing from the sources. `parseLongLong` is the host's
string-to-integer conversion behind `RedisModule_StringToLongLong`,
`MAX_DOC_TABLE_SIZE` the constant of that name and `TimeoutPolicy_ToString` the
helper of that name. -/
structure Externals where
  parseLongLong : String → Option Int
  MAX_DOC_TABLE_SIZE : Int
  TimeoutPolicy_ToString : RSTimeoutPolicy → String

/-- Modelled from the spec: the flag bitset of a descriptor, over the three
masks `RSCONFIGVAR_F_IMMUTABLE`, `RSCONFIGVAR_F_FLAG` and
`RSCONFIGVAR_F_MODIFIED` of `config.h` (missing from the sources), one
boolean per mask. -/
structure VarFlags where
  immutable : Bool
  flag : Bool
  modified : Bool
  deriving DecidableEq, Repr

/-- Value of `.flags` when the initializer names no flag. -/
def noFlags : VarFlags := ⟨false, false, false⟩

def RSCONFIGVAR_F_IMMUTABLE : VarFlags := ⟨true, false, false⟩

def RSCONFIGVAR_F_FLAG : VarFlags := ⟨false, true, false⟩

def RSCONFIGVAR_F_MODIFIED : VarFlags := ⟨false, false, true⟩

/-- Bitwise or of two flag sets. -/
def VarFlags.or (a b : VarFlags) : VarFlags :=
  ⟨a.immutable || b.immutable, a.flag || b.flag, a.modified || b.modified⟩

/-- Test `a & b` of a flag set against a mask. -/
def VarFlags.test (a b : VarFlags) : Bool :=
  (a.immutable && b.immutable) || (a.flag && b.flag) || (a.modified && b.modified)

/-- Type of a `CONFIG_SETTER`: from the configuration, `argv` and `*offset` to
the return code, the configuration and `*offset` afterwards. -/
abbrev Setter := RSConfig → List String → Nat → Option (Int × RSConfig × Nat)

/-- Type of a `CONFIG_GETTER`: an `sds` string or NULL. -/
abbrev Getter := RSConfig → Option String

/-- Modelled from the spec: the `RSConfigVar` descriptor of `config.h` (missing
from the sources). `setValue` and `getValue` are nullable function pointers. -/
structure RSConfigVar where
  name : String
  helpText : String
  setValue : Option Setter
  getValue : Option Getter
  flags : VarFlags

/-! ## Host runtime and libc -/

/-- The C string behind a module string: its characters before the first NUL. -/
def RedisModule_StringPtrLen (s : String) : String :=
  String.mk (s.data.takeWhile (fun c => c.toNat ≠ 0))

/-- The host conversion writes a `long long`: a result outside the range of
that type is not produced. -/
def RedisModule_StringToLongLong (E : Externals) (s : String) : Option Int :=
  match E.parseLongLong s with
  | some v => if LLONG_MIN ≤ v ∧ v ≤ LLONG_MAX then some v else none
  | none => none

/-- Result of `strcmp a b == 0`. -/
def strcmpEq (a b : String) : Bool := decide (a = b)

/-- ASCII `tolower` on a character code. -/
def asciiLower (n : Nat) : Nat := if 65 ≤ n ∧ n ≤ 90 then n + 32 else n

/-- Result of `strcasecmp a b == 0`. -/
def strcasecmpEq (a b : String) : Bool :=
  decide (a.data.map (fun c => asciiLower c.toNat) = b.data.map (fun c => asciiLower c.toNat))

/-- Output of `printf` with `%lld`. -/
def fmtLLD (v : Int) : String := toString v

/-- Output of `printf` with `%lu` or `%llu`: the value as an unsigned 64-bit
number. -/
def fmtLU (v : Int) : String := toString (v % SIZE_T_RANGE).toNat

/-! ## Integer readers -/

/-- `readLongLong`: `none` when the assertion `*offset <= argc` fails;
otherwise the new `*offset` with `some v` for `REDISMODULE_OK` and `*out = v`,
or with `none` for `REDISMODULE_ERR`. -/
def readLongLong (E : Externals) (argv : List String) (offset : Nat) :
    Option (Nat × Option Int) :=
  if offset ≤ argv.length then
    if offset = argv.length then
      some (offset, none)
    else
      match argv[offset]? with
      | none => none
      | some tok => some (offset + 1, RedisModule_StringToLongLong E tok)
  else none

/-- `readLongLongLimit`, same result convention as `readLongLong`. -/
def readLongLongLimit (E : Externals) (argv : List String) (offset : Nat)
    (minVal maxVal : Int) : Option (Nat × Option Int) :=
  match readLongLong E argv offset with
  | none => none
  | some (off, none) => some (off, none)
  | some (off, some out) =>
    if minVal ≠ LLONG_MIN ∧ out < minVal then some (off, none)
    else if maxVal ≠ LLONG_MAX ∧ out > maxVal then some (off, none)
    else some (off, some out)

/-! ## Per-option setters and getters -/

/-- Output of the `CONFIG_BOOLEAN_GETTER` body for a field value `cv`. -/
def booleanGetter (cv : Int) (invert : Bool) : Option String :=
  let cv := if invert then (if cv = 0 then (1 : Int) else 0) else cv
  some (if cv ≠ 0 then "true" else "false")

def setExtLoad : Setter := fun config argv offset =>
  if offset ≥ argv.length then
    some (REDISMODULE_ERR, config, offset)
  else
    match argv[offset]? with
    | none => none
    | some tok =>
      some (REDISMODULE_OK, { config with extLoad := some (RedisModule_StringPtrLen tok) },
        offset + 1)

def getExtLoad : Getter := fun config =>
  match config.extLoad with
  | some p => some p
  | none => none

def setSafemode : Setter := fun config _ offset =>
  some (REDISMODULE_OK, { config with concurrentMode := 0 }, offset)

def getSafemode : Getter := fun config => booleanGetter config.concurrentMode true

def setNoGc : Setter := fun config _ offset =>
  some (REDISMODULE_OK, { config with enableGC := 0 }, offset)

def getNoGc : Getter := fun config => booleanGetter config.enableGC true

def setMinPrefix (E : Externals) : Setter := fun config argv offset =>
  match readLongLongLimit E argv offset 1 LLONG_MAX with
  | none => none
  | some (off, none) => some (REDISMODULE_ERR, config, off)
  | some (off, some arg) => some (REDISMODULE_OK, { config with minTermPrefix := arg }, off)

def getMinPrefix : Getter := fun config => some (fmtLLD config.minTermPrefix)

def setMaxDocTableSize (E : Externals) : Setter := fun config argv offset =>
  match readLongLongLimit E argv offset 1 E.MAX_DOC_TABLE_SIZE with
  | none => none
  | some (off, none) => some (REDISMODULE_ERR, config, off)
  | some (off, some size) =>
    some (REDISMODULE_OK, { config with maxDocTableSize := toSizeT size }, off)

def getMaxDocTableSize : Getter := fun config => some (fmtLU config.maxDocTableSize)

def setMaxExpansions (E : Externals) : Setter := fun config argv offset =>
  match readLongLongLimit E argv offset 1 LLONG_MAX with
  | none => none
  | some (off, none) => some (REDISMODULE_ERR, config, off)
  | some (off, some num) =>
    some (REDISMODULE_OK, { config with maxPrefixExpansions := num }, off)

def getMaxExpansions : Getter := fun config => some (fmtLU config.maxPrefixExpansions)

def setTimeout (E : Externals) : Setter := fun config argv offset =>
  match readLongLongLimit E argv offset 0 LLONG_MAX with
  | none => none
  | some (off, none) => some (REDISMODULE_ERR, config, off)
  | some (off, some val) => some (REDISMODULE_OK, { config with queryTimeoutMS := val }, off)

def getTimeout : Getter := fun config => some (fmtLLD config.queryTimeoutMS)

def setIndexThreads (E : Externals) : Setter := fun config argv offset =>
  match readLongLongLimit E argv offset 1 LLONG_MAX with
  | none => none
  | some (off, none) => some (REDISMODULE_ERR, config, off)
  | some (off, some val) =>
    some (REDISMODULE_OK,
      { config with indexPoolSize := toSizeT val, poolSizeNoAuto := 1 }, off)

def getIndexthreads : Getter := fun config => some (fmtLU config.indexPoolSize)

def setSearchThreads (E : Externals) : Setter := fun config argv offset =>
  match readLongLongLimit E argv offset 1 LLONG_MAX with
  | none => none
  | some (off, none) => some (REDISMODULE_ERR, config, off)
  | some (off, some val) =>
    some (REDISMODULE_OK,
      { config with searchPoolSize := toSizeT val, poolSizeNoAuto := 1 }, off)

def getSearchThreads : Getter := fun config => some (fmtLU config.searchPoolSize)

def setFrisoINI : Setter := fun config argv offset =>
  if offset = argv.length then
    some (REDISMODULE_ERR, config, offset)
  else
    match argv[offset]? with
    | none => none
    | some tok =>
      some (REDISMODULE_OK, { config with frisoIni := some (RedisModule_StringPtrLen tok) },
        offset + 1)

def getFrisoINI : Getter := fun config =>
  match config.frisoIni with
  | some p => some p
  | none => none

def setOnTimeout : Setter := fun config argv offset =>
  if offset = argv.length then
    some (REDISMODULE_ERR, config, offset)
  else
    match argv[offset]? with
    | none => none
    | some tok =>
      let policy := RedisModule_StringPtrLen tok
      if strcasecmpEq policy "RETURN" then
        some (REDISMODULE_OK, { config with timeoutPolicy := TimeoutPolicy_Return }, offset + 1)
      else if strcasecmpEq policy "FAIL" then
        some (REDISMODULE_OK, { config with timeoutPolicy := TimeoutPolicy_Fail }, offset + 1)
      else
        some (REDISMODULE_ERR, config, offset + 1)

def getOnTimeout (E : Externals) : Getter := fun config =>
  some (E.TimeoutPolicy_ToString config.timeoutPolicy)

def setGcScanSize (E : Externals) : Setter := fun config argv offset =>
  match readLongLongLimit E argv offset 1 LLONG_MAX with
  | none => none
  | some (off, none) => some (REDISMODULE_ERR, config, off)
  | some (off, some val) =>
    some (REDISMODULE_OK, { config with gcScanSize := toSizeT val }, off)

def getGcScanSize : Getter := fun config => some (fmtLU config.gcScanSize)

def setMinPhoneticTermLen (E : Externals) : Setter := fun config argv offset =>
  match readLongLongLimit E argv offset 1 LLONG_MAX with
  | none => none
  | some (off, none) => some (REDISMODULE_ERR, config, off)
  | some (off, some val) =>
    some (REDISMODULE_OK, { config with minPhoneticTermLen := toSizeT val }, off)

def getMinPhoneticTermLen : Getter := fun config => some (fmtLU config.minPhoneticTermLen)

/-! ## The descriptor table -/

/-- The initializer of `RSGlobalConfigOptions.vars`, without the NULL-name
sentinel: the end of the list stands for it. -/
def RSGlobalConfigOptions (E : Externals) : List RSConfigVar :=
  [ { name := "EXTLOAD",
      helpText := "Load extension scoring/expansion module",
      setValue := some setExtLoad,
      getValue := some getExtLoad,
      flags := RSCONFIGVAR_F_IMMUTABLE },
    { name := "SAFEMODE",
      helpText := "Perform all operations in main thread",
      setValue := some setSafemode,
      getValue := some getSafemode,
      flags := RSCONFIGVAR_F_FLAG.or RSCONFIGVAR_F_IMMUTABLE },
    { name := "NOGC",
      helpText := "Disable garbage collection (for this process)",
      setValue := some setNoGc,
      getValue := some getNoGc,
      flags := RSCONFIGVAR_F_FLAG },
    { name := "MINPREFIX",
      helpText := "Set the minimum prefix for expansions (`*`)",
      setValue := some (setMinPrefix E),
      getValue := some getMinPrefix,
      flags := noFlags },
    { name := "MAXDOCTABLESIZE",
      helpText := "Maximum runtime document table size (for this process)",
      setValue := some (setMaxDocTableSize E),
      getValue := some getMaxDocTableSize,
      flags := RSCONFIGVAR_F_IMMUTABLE },
    { name := "MAXEXPANSIONS",
      helpText := "Maximum prefix expansions to be used in a query",
      setValue := some (setMaxExpansions E),
      getValue := some getMaxExpansions,
      flags := noFlags },
    { name := "TIMEOUT",
      helpText := "Query (search) timeout",
      setValue := some (setTimeout E),
      getValue := some getTimeout,
      flags := noFlags },
    { name := "INDEX_THREADS",
      helpText := "Create at most this number of background indexing threads (will not " ++
        "necessarily parallelize indexing)",
      setValue := some (setIndexThreads E),
      getValue := some getIndexthreads,
      flags := RSCONFIGVAR_F_IMMUTABLE },
    { name := "SEARCH_THREADS",
      helpText := "Create at must this number of search threads (not, will not " ++
        "necessarily parallelize search)",
      setValue := some (setSearchThreads E),
      getValue := some getSearchThreads,
      flags := RSCONFIGVAR_F_IMMUTABLE },
    { name := "FRISOINI",
      helpText := "Path to Chinese dictionary configuration file (for Chinese tokenization)",
      setValue := some setFrisoINI,
      getValue := some getFrisoINI,
      flags := RSCONFIGVAR_F_IMMUTABLE },
    { name := "ON_TIMEOUT",
      helpText := "Action to perform when search timeout is exceeded (choose RETURN or FAIL)",
      setValue := some setOnTimeout,
      getValue := some (getOnTimeout E),
      flags := noFlags },
    { name := "GCSCANSIZE",
      helpText := "Scan this many documents at a time during every GC iteration",
      setValue := some (setGcScanSize E),
      getValue := some getGcScanSize,
      flags := noFlags },
    { name := "MIN_PHONETIC_TERM_LEN",
      helpText := "Minumum length of term to be considered for phonetic matching",
      setValue := some (setMinPhoneticTermLen E),
      getValue := some getMinPhoneticTermLen,
      flags := noFlags } ]

/-! ## Lookup and bulk load -/

/-- Search of `findConfigVar` from table position `i` on: the position and the
entry of the first descriptor named `name`, or `none` for NULL. -/
def findConfigVarFrom (name : String) : Nat → List RSConfigVar → Option (Nat × RSConfigVar)
  | _, [] => none
  | i, v :: vars =>
    if strcmpEq name v.name then some (i, v) else findConfigVarFrom name (i + 1) vars

/-- `findConfigVar`: the returned pointer is the table position together with
the entry it points to. -/
def findConfigVar (vars : List RSConfigVar) (name : String) : Option (Nat × RSConfigVar) :=
  findConfigVarFrom name 0 vars

/-- The two globals of `config.c`: `RSGlobalConfig` and the table
`RSGlobalConfigOptions.vars`, whose `flags` fields `ReadConfig` writes. -/
structure Globals where
  config : RSConfig
  vars : List RSConfigVar

/-- How a run of `ReadConfig` ends. -/
inductive LoadResult where
  /-- Returned: the return code, `*err` and the globals. -/
  | returned (rc : Int) (err : Option String) (g : Globals)
  /-- Undefined behaviour inside a setter. -/
  | undefinedBehaviour
  /-- The iteration bound of the model was reached. -/
  | outOfFuel

/-- The statement `curVar->flags |= RSCONFIGVAR_F_MODIFIED` on the entry at
position `i`. -/
def markModified (vars : List RSConfigVar) (i : Nat) : List RSConfigVar :=
  vars.modify (fun v => { v with flags := v.flags.or RSCONFIGVAR_F_MODIFIED }) i

/-- The `while (offset < argc)` loop of `ReadConfig`, at most `fuel`
iterations. -/
def ReadConfigLoop (argv : List String) :
    Nat → Globals → Nat → Option String → LoadResult
  | fuel, g, offset, err =>
    if offset < argv.length then
      match fuel with
      | 0 => LoadResult.outOfFuel
      | fuel + 1 =>
        match argv[offset]? with
        | none => LoadResult.undefinedBehaviour
        | some tok =>
          let name := RedisModule_StringPtrLen tok
          match findConfigVar g.vars name with
          | none =>
            LoadResult.returned REDISMODULE_ERR
              (some ("No such configuration option `" ++ name ++ "`")) g
          | some (i, curVar) =>
            match curVar.setValue with
            | none =>
              LoadResult.returned REDISMODULE_ERR (some (name ++ ": Option is read-only")) g
            | some set =>
              match set g.config argv (offset + 1) with
              | none => LoadResult.undefinedBehaviour
              | some (rc, config, offset) =>
                if rc ≠ REDISMODULE_OK then
                  LoadResult.returned REDISMODULE_ERR (some (name ++ ": Bad value"))
                    { g with config := config }
                else
                  ReadConfigLoop argv fuel
                    { config := config, vars := markModified g.vars i } offset err
    else
      LoadResult.returned REDISMODULE_OK err g

/-- The block `if (getenv("RS_MIN_THREADS")) ...` of `ReadConfig` on
`RSGlobalConfig`. -/
def minThreadsOverride (rsMinThreads : Bool) (config : RSConfig) : RSConfig :=
  if rsMinThreads then
    { config with searchPoolSize := 1, indexPoolSize := 1, poolSizeNoAuto := 1 }
  else config

/-- `ReadConfig`. `rsMinThreads` tells whether `getenv("RS_MIN_THREADS")` is
non-NULL. Every iteration of the loop moves `offset` past at least the name
token, hence the bound of `argc` iterations. -/
def ReadConfig (rsMinThreads : Bool) (g : Globals) (argv : List String) : LoadResult :=
  let err : Option String := none
  let config := minThreadsOverride rsMinThreads g.config
  ReadConfigLoop argv argv.length { g with config := config } 0 err

/-! ## Introspection -/

/-- One call on the reply context `ctx`, in call order. -/
inductive Reply where
  /-- `RedisModule_ReplyWithArray(ctx, REDISMODULE_POSTPONED_ARRAY_LEN)` -/
  | arrayPostponed
  /-- `RedisModule_ReplyWithSimpleString(ctx, s)` -/
  | simpleString (s : String)
  /-- `RedisModule_ReplyWithStringBuffer(ctx, s, len)` -/
  | stringBuffer (s : String)
  /-- `RedisModule_ReplyWithNull(ctx)` -/
  | null
  /-- `RedisModule_ReplySetArrayLength(ctx, n)` -/
  | setArrayLength (n : Nat)
  deriving DecidableEq, Repr

/-- `dumpConfigOption`: the calls it adds to `ctx`; `none` when `var->getValue`
is NULL. `isHelp` is the truth value of the C `int`. -/
def dumpConfigOption (config : RSConfig) (var : RSConfigVar) (ctx : List Reply)
    (isHelp : Bool) : Option (List Reply) :=
  let numElems : Nat := 0
  match var.getValue with
  | none => none
  | some get =>
    let currValue := get config
    let ctx := ctx ++ [Reply.arrayPostponed]
    let ctx := ctx ++ [Reply.simpleString var.name]
    let numElems := numElems + 1
    if isHelp then
      let ctx := ctx ++ [Reply.simpleString "Description"]
      let ctx := ctx ++ [Reply.simpleString var.helpText]
      let ctx := ctx ++ [Reply.simpleString "Value"]
      let ctx :=
        match currValue with
        | some v => ctx ++ [Reply.stringBuffer v]
        | none => ctx ++ [Reply.null]
      let numElems := numElems + 4
      some (ctx ++ [Reply.setArrayLength numElems])
    else
      let ctx :=
        match currValue with
        | some v => ctx ++ [Reply.simpleString v]
        | none => ctx ++ [Reply.null]
      let numElems := numElems + 1
      some (ctx ++ [Reply.setArrayLength numElems])

/-- The `for` loop of `RSConfig_DumpProto` over the entries before the
sentinel: the reply context and `numElems` afterwards. -/
def dumpAllOptions (config : RSConfig) (isHelp : Bool) :
    List RSConfigVar → List Reply → Nat → Option (List Reply × Nat)
  | [], ctx, numElems => some (ctx, numElems)
  | cur :: rest, ctx, numElems =>
    match dumpConfigOption config cur ctx isHelp with
    | none => none
    | some ctx => dumpAllOptions config isHelp rest ctx (numElems + 1)

/-- `RSConfig_DumpProto`: the reply context afterwards. -/
def RSConfig_DumpProto (config : RSConfig) (options : List RSConfigVar) (name : String)
    (ctx : List Reply) (isHelp : Bool) : Option (List Reply) :=
  let numElems : Nat := 0
  let ctx := ctx ++ [Reply.arrayPostponed]
  if strcmpEq "*" name then
    match dumpAllOptions config isHelp options ctx numElems with
    | none => none
    | some (ctx, numElems) => some (ctx ++ [Reply.setArrayLength numElems])
  else
    match findConfigVar options name with
    | some (_, v) =>
      let numElems := numElems + 1
      match dumpConfigOption config v ctx isHelp with
      | none => none
      | some ctx => some (ctx ++ [Reply.setArrayLength numElems])
    | none => some (ctx ++ [Reply.setArrayLength numElems])

/-! ## Runtime set -/

/-- Modelled from the spec: the `SET_ERR` macro of `err.h` (missing from the
sources) stores the message in the error output. -/
def SET_ERR (_err : Option String) (msg : String) : Option String := some msg

/-- `RSConfig_SetOption`: the return code, the configuration, `*offset` and
`*err` afterwards; `none` when `var->setValue` is NULL or the setter runs into
undefined behaviour. -/
def RSConfig_SetOption (config : RSConfig) (options : List RSConfigVar) (name : String)
    (argv : List String) (offset : Nat) (err : Option String) :
    Option (Int × RSConfig × Nat × Option String) :=
  match findConfigVar options name with
  | none => some (REDISMODULE_ERR, config, offset, SET_ERR err "No such option")
  | some (_, var) =>
    if var.flags.test RSCONFIGVAR_F_IMMUTABLE then
      some (REDISMODULE_ERR, config, offset, SET_ERR err "Option not settable at runtime")
    else
      match var.setValue with
      | none => none
      | some set =>
        match set config argv offset with
        | none => none
        | some (rc, config, offset) => some (rc, config, offset, err)

/-! ## Reading the reply context as nested arrays -/

/-- A reply value: a scalar, or an array with the length declared for it and
the elements emitted into it. -/
inductive ReplyValue where
  | simple (s : String)
  | buffer (s : String)
  | null
  | array (declared : Nat) (elems : List ReplyValue)

/-- State of the decoder: the values completed at top level and the arrays
still open, innermost first, each with its elements so far; both in reverse
order of emission. -/
structure DecodeState where
  done : List ReplyValue
  opened : List (List ReplyValue)

/-- Put a completed value into the innermost open array, or at top level. -/
def DecodeState.push (st : DecodeState) (v : ReplyValue) : DecodeState :=
  match st.opened with
  | [] => { st with done := v :: st.done }
  | top :: rest => { st with opened := (v :: top) :: rest }

/-- One reply call. A postponed array stays open until the next
`setArrayLength`, which the host applies to the innermost array whose length is
still postponed. -/
def decodeStep (st : DecodeState) : Reply → Option DecodeState
  | Reply.arrayPostponed => some { st with opened := [] :: st.opened }
  | Reply.simpleString s => some (st.push (ReplyValue.simple s))
  | Reply.stringBuffer s => some (st.push (ReplyValue.buffer s))
  | Reply.null => some (st.push ReplyValue.null)
  | Reply.setArrayLength n =>
    match st.opened with
    | [] => none
    | top :: rest =>
      some (DecodeState.push { st with opened := rest } (ReplyValue.array n top.reverse))

/-- Run the decoder over a sequence of calls. -/
def decodeFrom : DecodeState → List Reply → Option DecodeState
  | st, [] => some st
  | st, r :: rs =>
    match decodeStep st r with
    | none => none
    | some st => decodeFrom st rs

/-- The top-level values of a complete reply context; `none` when an array is
left open or a length is set with no array open. -/
def decodeReplies (ctx : List Reply) : Option (List ReplyValue) :=
  match decodeFrom { done := [], opened := [] } ctx with
  | some st => if st.opened.isEmpty then some st.done.reverse else none
  | none => none

/-- The reply value of a getter result: a simple string, or null for NULL. -/
def valueOrNull : Option String → ReplyValue
  | some v => ReplyValue.simple v
  | none => ReplyValue.null

/-! ## A sample host -/

/-- Value of a decimal digit character. -/
def digitValue (c : Char) : Option Nat :=
  if 48 ≤ c.toNat ∧ c.toNat ≤ 57 then some (c.toNat - 48) else none

/-- Value of a sequence of decimal digits after the digits read into `acc`. -/
def parseDigits : List Char → Nat → Option Nat
  | [], acc => some acc
  | c :: cs, acc =>
    match digitValue c with
    | none => none
    | some d => parseDigits cs (acc * 10 + d)

/-- A strict decimal conversion: an optional minus sign and digits, no leading
zero except for the numeral `0` alone. -/
def parseDecimal (s : String) : Option Int :=
  match s.data with
  | [] => none
  | ['0'] => some 0
  | '-' :: c :: cs =>
    if c = '0' then none else (parseDigits (c :: cs) 0).map (fun n => -(n : Int))
  | c :: cs =>
    if c = '0' then none else (parseDigits (c :: cs) 0).map (fun n => (n : Int))

/-- A host for evaluating the model on concrete inputs. -/
def sampleHost : Externals where
  parseLongLong := parseDecimal
  MAX_DOC_TABLE_SIZE := 100000000
  TimeoutPolicy_ToString := fun p =>
    match p with
    | TimeoutPolicy_Return => "return"
    | TimeoutPolicy_Fail => "fail"

/-- A configuration for evaluating the model on concrete inputs. -/
def sampleConfig : RSConfig where
  concurrentMode := 1
  extLoad := none
  frisoIni := none
  enableGC := 1
  minTermPrefix := 2
  maxPrefixExpansions := 200
  queryTimeoutMS := 500
  cursorReadSize := 1000
  cursorMaxIdle := 300000
  timeoutPolicy := TimeoutPolicy_Return
  maxDocTableSize := 1000000
  searchPoolSize := 20
  indexPoolSize := 8
  poolSizeNoAuto := 0
  gcScanSize := 100
  minPhoneticTermLen := 3

/-- The globals at module load: the sample configuration and the table as
declared. -/
def sampleGlobals : Globals := { config := sampleConfig, vars := RSGlobalConfigOptions sampleHost }

/-- What a test observes of a load: the return code, `*err`, the
configuration and the flags of the table. -/
def LoadResult.observe : LoadResult → Option (Int × Option String × RSConfig × List VarFlags)
  | LoadResult.returned rc err g => some (rc, err, g.config, g.vars.map (fun v => v.flags))
  | _ => none

/-! ## Definitions used by the statements and proofs -/

/-- A descriptor with its MODIFIED bit cleared. -/
def clearModified (v : RSConfigVar) : RSConfigVar :=
  { v with flags := { v.flags with modified := false } }

/-- The table `vars` is the declared table up to MODIFIED bits, the only part
of it that `config.c` writes. -/
def DeclaredTable (E : Externals) (vars : List RSConfigVar) : Prop :=
  vars.map clearModified = RSGlobalConfigOptions E

/-- Globals that module start-up and loads can produce: the table as declared
with any configuration, and what a returning `ReadConfig` leaves. -/
inductive Reachable (E : Externals) : Globals → Prop where
  | start (config : RSConfig) : Reachable E { config := config, vars := RSGlobalConfigOptions E }
  | load {g g1 : Globals} (rsMinThreads : Bool) (argv : List String) (rc : Int)
      (err : Option String) :
      Reachable E g → ReadConfig rsMinThreads g argv = LoadResult.returned rc err g1 →
      Reachable E g1

/-- The MODIFIED bit of the descriptor named `name`. -/
def modifiedFlagOf (vars : List RSConfigVar) (name : String) : Option Bool :=
  (findConfigVar vars name).map (fun p => p.2.flags.modified)

/-- Behaviour shared by the setters of the declared table. From a cursor
inside `argv` a setter returns one of the two codes, moves the cursor forward
and not past the end and leaves the configuration alone when it fails; a
success does not depend on tokens after the ones before the new cursor. -/
structure SetterSpec (set : Setter) : Prop where
  total : ∀ (c : RSConfig) (argv : List String) (off : Nat), off ≤ argv.length →
    ∃ rc c1 off1, set c argv off = some (rc, c1, off1) ∧ off ≤ off1 ∧ off1 ≤ argv.length ∧
      (rc = REDISMODULE_OK ∨ rc = REDISMODULE_ERR ∧ c1 = c)
  stable : ∀ (c : RSConfig) (pre suf : List String) (off : Nat) (c1 : RSConfig) (off1 : Nat),
    off ≤ pre.length → set c pre off = some (REDISMODULE_OK, c1, off1) →
      set c (pre ++ suf) off = some (REDISMODULE_OK, c1, off1)

/-- A setter that takes a value fails at the end of `argv`. -/
def FailsAtEnd (set : Setter) : Prop :=
  ∀ (c : RSConfig) (argv : List String),
    set c argv argv.length = some (REDISMODULE_ERR, c, argv.length)

/-- Common shape of the setters that read one bounded integer. -/
def numericSetter (E : Externals) (minVal maxVal : Int) (store : RSConfig → Int → RSConfig) :
    Setter := fun config argv offset =>
  match readLongLongLimit E argv offset minVal maxVal with
  | none => none
  | some (off, none) => some (REDISMODULE_ERR, config, off)
  | some (off, some v) => some (REDISMODULE_OK, store config v, off)

/-- Common shape of the setters that store the C string of one token. -/
def pathSetter (store : RSConfig → String → RSConfig) : Setter := fun config argv offset =>
  if offset = argv.length then
    some (REDISMODULE_ERR, config, offset)
  else
    match argv[offset]? with
    | none => none
    | some tok => some (REDISMODULE_OK, store config (RedisModule_StringPtrLen tok), offset + 1)

/-- The serialized value of a descriptor: the result of its getter, NULL when
the value is unset. -/
def RSConfigVar.serialize (v : RSConfigVar) (config : RSConfig) : Option String :=
  match v.getValue with
  | some get => get config
  | none => none

/-- The reply calls of one rendered descriptor: name and value, with the
description in between when help is requested; the value is a null reply
when unset. -/
def entryReplies (config : RSConfig) (isHelp : Bool) (v : RSConfigVar) : List Reply :=
  if isHelp then
    [Reply.arrayPostponed, Reply.simpleString v.name, Reply.simpleString "Description",
      Reply.simpleString v.helpText, Reply.simpleString "Value",
      (match v.serialize config with
        | some s => Reply.stringBuffer s
        | none => Reply.null),
      Reply.setArrayLength 5]
  else
    [Reply.arrayPostponed, Reply.simpleString v.name,
      (match v.serialize config with
        | some s => Reply.simpleString s
        | none => Reply.null),
      Reply.setArrayLength 2]

/-- The record of one rendered descriptor as a reply value. -/
def entryValue (config : RSConfig) (isHelp : Bool) (v : RSConfigVar) : ReplyValue :=
  if isHelp then
    ReplyValue.array 5
      [ReplyValue.simple v.name, ReplyValue.simple "Description", ReplyValue.simple v.helpText,
        ReplyValue.simple "Value",
        (match v.serialize config with
          | some s => ReplyValue.buffer s
          | none => ReplyValue.null)]
  else
    ReplyValue.array 2 [ReplyValue.simple v.name, valueOrNull (v.serialize config)]

/-- A setter looks at `argv` only relative to the cursor: with tokens put in
front and the cursor moved by as many, it does the same and ends as many
positions further. -/
def SetterShift (set : Setter) : Prop :=
  ∀ (c : RSConfig) (pre argv : List String) (off : Nat),
    set c (pre ++ argv) (pre.length + off) =
      (set c argv off).map (fun r => (r.1, r.2.1, pre.length + r.2.2))

/-- The digit list `xs` is the decimal numeral of `n`: read after any digits
it appends the value `n`, it is `0` alone for zero and starts with a nonzero
digit otherwise. -/
def DecimalOf (n : Nat) (xs : List Char) : Prop :=
  (∀ (acc : Nat) (rest : List Char),
    parseDigits (xs ++ rest) acc = parseDigits rest (acc * 10 ^ xs.length + n)) ∧
  (n = 0 → xs = ['0']) ∧ (0 < n → ∃ c cs, xs = c :: cs ∧ c ≠ '0' ∧ c ≠ '-')

/-- Modelled from the spec: what the round trip of a value needs of the parts
missing from the sources. The host conversion behind
`RedisModule_StringToLongLong` reads back the decimal numeral that `printf`
writes for a `long long`, and `TimeoutPolicy_ToString` (`config.h`) names each
policy by the literal the parser accepts for it, in any letter case. -/
def HostReadsBack (E : Externals) : Prop :=
  (∀ v : Int, LLONG_MIN ≤ v → v ≤ LLONG_MAX → E.parseLongLong (fmtLLD v) = some v) ∧
  strcasecmpEq (RedisModule_StringPtrLen (E.TimeoutPolicy_ToString TimeoutPolicy_Return))
    "RETURN" = true ∧
  strcasecmpEq (RedisModule_StringPtrLen (E.TimeoutPolicy_ToString TimeoutPolicy_Fail))
    "FAIL" = true

/-! ## Lemmas on lookup -/

theorem findConfigVarFrom_none (name : String) :
    ∀ (vars : List RSConfigVar) (k : Nat), (∀ v ∈ vars, v.name ≠ name) →
      findConfigVarFrom name k vars = none := by
  intro vars
  induction vars with
  | nil => intro k _; rfl
  | cons v vs ih =>
    intro k h
    have hv : name ≠ v.name := fun e => h v (List.mem_cons_self _ _) e.symm
    simp only [findConfigVarFrom, strcmpEq, hv, decide_False]
    exact ih (k + 1) (fun w hw => h w (List.mem_cons_of_mem _ hw))

theorem findConfigVarFrom_map (name : String) (f : RSConfigVar → RSConfigVar)
    (hf : ∀ v, (f v).name = v.name) :
    ∀ (vars : List RSConfigVar) (k : Nat),
      findConfigVarFrom name k (vars.map f) =
        (findConfigVarFrom name k vars).map (fun p => (p.1, f p.2)) := by
  intro vars
  induction vars with
  | nil => intro k; rfl
  | cons v vs ih =>
    intro k
    simp only [List.map_cons, findConfigVarFrom, hf]
    by_cases h : strcmpEq name v.name = true
    · simp [h]
    · simp [h, ih]

theorem clearModified_name (v : RSConfigVar) : (clearModified v).name = v.name := rfl

theorem find_declared {E : Externals} {vars : List RSConfigVar} (h : DeclaredTable E vars)
    (name : String) :
    findConfigVar (RSGlobalConfigOptions E) name =
      (findConfigVar vars name).map (fun p => (p.1, clearModified p.2)) := by
  unfold findConfigVar
  rw [← h]
  exact findConfigVarFrom_map name clearModified clearModified_name vars 0

theorem find_declared_some {E : Externals} {vars : List RSConfigVar}
    (h : DeclaredTable E vars) {name : String} {i : Nat} {d : RSConfigVar}
    (hd : findConfigVar (RSGlobalConfigOptions E) name = some (i, d)) :
    ∃ v, findConfigVar vars name = some (i, v) ∧ clearModified v = d := by
  rw [find_declared h] at hd
  cases hf : findConfigVar vars name with
  | none => rw [hf] at hd; cases hd
  | some p =>
    rw [hf] at hd
    obtain ⟨j, v⟩ := p
    simp only [Option.map_some', Option.some.injEq, Prod.mk.injEq] at hd
    exact ⟨v, by rw [hd.1], hd.2⟩

theorem find_declared_none {E : Externals} {vars : List RSConfigVar}
    (h : DeclaredTable E vars) {name : String}
    (hd : findConfigVar (RSGlobalConfigOptions E) name = none) :
    findConfigVar vars name = none := by
  rw [find_declared h] at hd
  cases hf : findConfigVar vars name with
  | none => rfl
  | some p => rw [hf] at hd; cases hd

theorem declared_start (E : Externals) : DeclaredTable E (RSGlobalConfigOptions E) := rfl

theorem setValue_of_clear {v d : RSConfigVar} (h : clearModified v = d) :
    v.setValue = d.setValue := by
  rw [← h]; rfl

theorem stringToLongLong_range {E : Externals} {s : String} {n : Int}
    (h : RedisModule_StringToLongLong E s = some n) : LLONG_MIN ≤ n ∧ n ≤ LLONG_MAX := by
  unfold RedisModule_StringToLongLong at h
  split at h
  · split at h
    · cases h; assumption
    · cases h
  · cases h

theorem toSizeT_of_pos {n : Int} (h1 : 1 ≤ n) (h2 : n ≤ LLONG_MAX) : toSizeT n = n := by
  unfold toSizeT SIZE_T_RANGE
  unfold LLONG_MAX at h2
  omega

theorem loop_done (argv : List String) (fuel : Nat) (g : Globals) (offset : Nat)
    (err : Option String) (h : ¬ offset < argv.length) :
    ReadConfigLoop argv fuel g offset err = LoadResult.returned REDISMODULE_OK err g := by
  cases fuel <;> simp [ReadConfigLoop, h]

theorem loop_unknown (argv : List String) (fuel : Nat) (g : Globals) (offset : Nat)
    (err : Option String) (tok : String) (ht : argv[offset]? = some tok)
    (hf : findConfigVar g.vars (RedisModule_StringPtrLen tok) = none) :
    ReadConfigLoop argv (fuel + 1) g offset err =
      LoadResult.returned REDISMODULE_ERR
        (some ("No such configuration option `" ++ RedisModule_StringPtrLen tok ++ "`")) g := by
  have hlt : offset < argv.length := by
    rcases Nat.lt_or_ge offset argv.length with h | h
    · exact h
    · rw [List.getElem?_eq_none h] at ht; cases ht
  simp [ReadConfigLoop, hlt, ht, hf]

theorem loop_step (argv : List String) (fuel : Nat) (g : Globals) (offset : Nat)
    (err : Option String) (tok : String) (i : Nat) (v : RSConfigVar) (set : Setter)
    (rc : Int) (c : RSConfig) (off : Nat) (ht : argv[offset]? = some tok)
    (hf : findConfigVar g.vars (RedisModule_StringPtrLen tok) = some (i, v))
    (hs : v.setValue = some set) (hr : set g.config argv (offset + 1) = some (rc, c, off)) :
    ReadConfigLoop argv (fuel + 1) g offset err =
      if rc ≠ REDISMODULE_OK then
        LoadResult.returned REDISMODULE_ERR
          (some (RedisModule_StringPtrLen tok ++ ": Bad value")) { g with config := c }
      else ReadConfigLoop argv fuel { config := c, vars := markModified g.vars i } off err := by
  have hlt : offset < argv.length := by
    rcases Nat.lt_or_ge offset argv.length with h | h
    · exact h
    · rw [List.getElem?_eq_none h] at ht; cases ht
  rw [ReadConfigLoop]
  simp only [hlt, if_true, ht, hf, hs, hr]

/-! ## Lemmas on the setters -/

theorem readLongLongLimit_end (E : Externals) (argv : List String) (minVal maxVal : Int) :
    readLongLongLimit E argv argv.length minVal maxVal = some (argv.length, none) := by
  simp [readLongLongLimit, readLongLong]

theorem readLongLongLimit_lt (E : Externals) (argv : List String) (off : Nat)
    (minVal maxVal : Int) (tok : String) (h : argv[off]? = some tok) :
    readLongLongLimit E argv off minVal maxVal =
      match RedisModule_StringToLongLong E tok with
      | none => some (off + 1, none)
      | some out =>
        if minVal ≠ LLONG_MIN ∧ out < minVal then some (off + 1, none)
        else if maxVal ≠ LLONG_MAX ∧ out > maxVal then some (off + 1, none)
        else some (off + 1, some out) := by
  have hlt : off < argv.length := by
    rcases Nat.lt_or_ge off argv.length with h1 | h1
    · exact h1
    · rw [List.getElem?_eq_none h1] at h; cases h
  have h1 : off ≤ argv.length := Nat.le_of_lt hlt
  have h2 : off ≠ argv.length := Nat.ne_of_lt hlt
  unfold readLongLongLimit readLongLong
  simp only [h1, h2, h, if_true, if_false]
  cases RedisModule_StringToLongLong E tok <;> rfl

theorem readLongLongLimit_shape (E : Externals) (argv : List String) (off : Nat)
    (minVal maxVal : Int) (tok : String) (h : argv[off]? = some tok) :
    ∃ r, readLongLongLimit E argv off minVal maxVal = some (off + 1, r) := by
  rw [readLongLongLimit_lt E argv off minVal maxVal tok h]
  cases RedisModule_StringToLongLong E tok with
  | none => exact ⟨_, rfl⟩
  | some out =>
    dsimp only
    split
    · exact ⟨_, rfl⟩
    · split
      · exact ⟨_, rfl⟩
      · exact ⟨_, rfl⟩

theorem getElem?_of_lt (argv : List String) (off : Nat) (h : off < argv.length) :
    ∃ tok, argv[off]? = some tok := ⟨argv[off], List.getElem?_eq_getElem h⟩

theorem numericSetter_spec (E : Externals) (minVal maxVal : Int)
    (store : RSConfig → Int → RSConfig) : SetterSpec (numericSetter E minVal maxVal store) := by
  constructor
  · intro c argv off hle
    rcases Nat.lt_or_ge off argv.length with hlt | hge
    · obtain ⟨tok, ht⟩ := getElem?_of_lt argv off hlt
      obtain ⟨r, hr⟩ := readLongLongLimit_shape E argv off minVal maxVal tok ht
      unfold numericSetter
      rw [hr]
      cases r with
      | none => exact ⟨_, _, _, rfl, by omega, by omega, Or.inr ⟨rfl, rfl⟩⟩
      | some out => exact ⟨_, _, _, rfl, by omega, by omega, Or.inl rfl⟩
    · have he : off = argv.length := by omega
      subst he
      unfold numericSetter
      rw [readLongLongLimit_end]
      exact ⟨_, _, _, rfl, by omega, by omega, Or.inr ⟨rfl, rfl⟩⟩
  · intro c pre suf off c1 off1 hle hset
    rcases Nat.lt_or_ge off pre.length with hlt | hge
    · obtain ⟨tok, ht⟩ := getElem?_of_lt pre off hlt
      have ht2 : (pre ++ suf)[off]? = some tok := by
        rw [List.getElem?_append_left hlt]; exact ht
      unfold numericSetter at hset ⊢
      rw [readLongLongLimit_lt E pre off minVal maxVal tok ht] at hset
      rw [readLongLongLimit_lt E (pre ++ suf) off minVal maxVal tok ht2]
      exact hset
    · have he : off = pre.length := by omega
      subst he
      unfold numericSetter at hset
      rw [readLongLongLimit_end] at hset
      simp [REDISMODULE_OK, REDISMODULE_ERR] at hset

theorem numericSetter_failsAtEnd (E : Externals) (minVal maxVal : Int)
    (store : RSConfig → Int → RSConfig) : FailsAtEnd (numericSetter E minVal maxVal store) := by
  intro c argv
  unfold numericSetter
  rw [readLongLongLimit_end]

theorem setMinPrefix_eq (E : Externals) :
    setMinPrefix E = numericSetter E 1 LLONG_MAX (fun c v => { c with minTermPrefix := v }) :=
  rfl

theorem setMaxDocTableSize_eq (E : Externals) :
    setMaxDocTableSize E = numericSetter E 1 E.MAX_DOC_TABLE_SIZE
      (fun c v => { c with maxDocTableSize := toSizeT v }) := rfl

theorem setMaxExpansions_eq (E : Externals) :
    setMaxExpansions E = numericSetter E 1 LLONG_MAX
      (fun c v => { c with maxPrefixExpansions := v }) := rfl

theorem setTimeout_eq (E : Externals) :
    setTimeout E = numericSetter E 0 LLONG_MAX (fun c v => { c with queryTimeoutMS := v }) :=
  rfl

theorem setIndexThreads_eq (E : Externals) :
    setIndexThreads E = numericSetter E 1 LLONG_MAX
      (fun c v => { c with indexPoolSize := toSizeT v, poolSizeNoAuto := 1 }) := rfl

theorem setSearchThreads_eq (E : Externals) :
    setSearchThreads E = numericSetter E 1 LLONG_MAX
      (fun c v => { c with searchPoolSize := toSizeT v, poolSizeNoAuto := 1 }) := rfl

theorem setGcScanSize_eq (E : Externals) :
    setGcScanSize E = numericSetter E 1 LLONG_MAX
      (fun c v => { c with gcScanSize := toSizeT v }) := rfl

theorem setMinPhoneticTermLen_eq (E : Externals) :
    setMinPhoneticTermLen E = numericSetter E 1 LLONG_MAX
      (fun c v => { c with minPhoneticTermLen := toSizeT v }) := rfl

theorem flagSetter_spec (store : RSConfig → RSConfig) :
    SetterSpec (fun config _ offset => some (REDISMODULE_OK, store config, offset)) := by
  constructor
  · intro c argv off hle
    exact ⟨_, _, _, rfl, le_refl _, hle, Or.inl rfl⟩
  · intro c pre suf off c1 off1 _ h
    exact h

theorem setExtLoad_eq (c : RSConfig) (argv : List String) (off : Nat) (h : off ≤ argv.length) :
    setExtLoad c argv off = pathSetter (fun c p => { c with extLoad := some p }) c argv off := by
  unfold setExtLoad pathSetter
  by_cases he : off = argv.length
  · simp [he]
  · have : ¬ off ≥ argv.length := by omega
    simp [he, this]

theorem setFrisoINI_eq :
    setFrisoINI = pathSetter (fun c p => { c with frisoIni := some p }) := rfl

theorem pathSetter_spec (store : RSConfig → String → RSConfig) :
    SetterSpec (pathSetter store) := by
  constructor
  · intro c argv off hle
    rcases Nat.lt_or_ge off argv.length with hlt | hge
    · obtain ⟨tok, ht⟩ := getElem?_of_lt argv off hlt
      have hne : off ≠ argv.length := Nat.ne_of_lt hlt
      refine ⟨REDISMODULE_OK, store c (RedisModule_StringPtrLen tok), off + 1, ?_, by omega,
        by omega, Or.inl rfl⟩
      simp [pathSetter, hne, ht]
    · have he : off = argv.length := by omega
      subst he
      exact ⟨_, _, _, by simp [pathSetter], le_refl _, le_refl _, Or.inr ⟨rfl, rfl⟩⟩
  · intro c pre suf off c1 off1 hle hset
    rcases Nat.lt_or_ge off pre.length with hlt | hge
    · obtain ⟨tok, ht⟩ := getElem?_of_lt pre off hlt
      have ht2 : (pre ++ suf)[off]? = some tok := by
        rw [List.getElem?_append_left hlt]; exact ht
      have hne : off ≠ pre.length := Nat.ne_of_lt hlt
      have hne2 : off ≠ (pre ++ suf).length := by simp; omega
      simp only [pathSetter, hne, ht, if_false] at hset
      simp only [pathSetter, hne2, ht2, if_false]
      exact hset
    · have he : off = pre.length := by omega
      subst he
      simp [pathSetter, REDISMODULE_OK, REDISMODULE_ERR] at hset

theorem pathSetter_failsAtEnd (store : RSConfig → String → RSConfig) :
    FailsAtEnd (pathSetter store) := by
  intro c argv
  simp [pathSetter]

theorem setExtLoad_spec : SetterSpec setExtLoad := by
  have hp := pathSetter_spec (fun c p => { c with extLoad := some p })
  constructor
  · intro c argv off hle
    rw [setExtLoad_eq c argv off hle]
    exact hp.total c argv off hle
  · intro c pre suf off c1 off1 hle hset
    rw [setExtLoad_eq c pre off hle] at hset
    rw [setExtLoad_eq c (pre ++ suf) off (by simp; omega)]
    exact hp.stable c pre suf off c1 off1 hle hset

theorem setOnTimeout_at (c : RSConfig) (argv : List String) (off : Nat) (tok : String)
    (ht : argv[off]? = some tok) :
    setOnTimeout c argv off =
      if strcasecmpEq (RedisModule_StringPtrLen tok) "RETURN" then
        some (REDISMODULE_OK, { c with timeoutPolicy := TimeoutPolicy_Return }, off + 1)
      else if strcasecmpEq (RedisModule_StringPtrLen tok) "FAIL" then
        some (REDISMODULE_OK, { c with timeoutPolicy := TimeoutPolicy_Fail }, off + 1)
      else some (REDISMODULE_ERR, c, off + 1) := by
  have hlt : off < argv.length := by
    rcases Nat.lt_or_ge off argv.length with h1 | h1
    · exact h1
    · rw [List.getElem?_eq_none h1] at ht; cases ht
  have hne : off ≠ argv.length := Nat.ne_of_lt hlt
  simp only [setOnTimeout, hne, ht, if_false]

theorem setOnTimeout_spec : SetterSpec setOnTimeout := by
  constructor
  · intro c argv off hle
    rcases Nat.lt_or_ge off argv.length with hlt | hge
    · obtain ⟨tok, ht⟩ := getElem?_of_lt argv off hlt
      rw [setOnTimeout_at c argv off tok ht]
      split
      · exact ⟨_, _, _, rfl, by omega, by omega, Or.inl rfl⟩
      · split
        · exact ⟨_, _, _, rfl, by omega, by omega, Or.inl rfl⟩
        · exact ⟨_, _, _, rfl, by omega, by omega, Or.inr ⟨rfl, rfl⟩⟩
    · have he : off = argv.length := by omega
      subst he
      exact ⟨_, _, _, by simp [setOnTimeout], le_refl _, le_refl _, Or.inr ⟨rfl, rfl⟩⟩
  · intro c pre suf off c1 off1 hle hset
    rcases Nat.lt_or_ge off pre.length with hlt | hge
    · obtain ⟨tok, ht⟩ := getElem?_of_lt pre off hlt
      have ht2 : (pre ++ suf)[off]? = some tok := by
        rw [List.getElem?_append_left hlt]; exact ht
      rw [setOnTimeout_at c pre off tok ht] at hset
      rw [setOnTimeout_at c (pre ++ suf) off tok ht2]
      exact hset
    · have he : off = pre.length := by omega
      subst he
      simp [setOnTimeout, REDISMODULE_OK, REDISMODULE_ERR] at hset

theorem setOnTimeout_failsAtEnd : FailsAtEnd setOnTimeout := by
  intro c argv
  simp [setOnTimeout]

theorem setExtLoad_failsAtEnd : FailsAtEnd setExtLoad := by
  intro c argv
  simp [setExtLoad]

/-- Every setter of the declared table meets `SetterSpec`. -/
theorem declared_setterSpec (E : Externals) (d : RSConfigVar)
    (hd : d ∈ RSGlobalConfigOptions E) (set : Setter) (hs : d.setValue = some set) :
    SetterSpec set := by
  simp only [RSGlobalConfigOptions, List.mem_cons, List.mem_singleton, List.not_mem_nil,
    or_false] at hd
  rcases hd with h | h | h | h | h | h | h | h | h | h | h | h | h <;>
    (subst h; simp only [Option.some.injEq] at hs; subst hs)
  · exact setExtLoad_spec
  · exact flagSetter_spec _
  · exact flagSetter_spec _
  · exact setMinPrefix_eq E ▸ numericSetter_spec E _ _ _
  · exact setMaxDocTableSize_eq E ▸ numericSetter_spec E _ _ _
  · exact setMaxExpansions_eq E ▸ numericSetter_spec E _ _ _
  · exact setTimeout_eq E ▸ numericSetter_spec E _ _ _
  · exact setIndexThreads_eq E ▸ numericSetter_spec E _ _ _
  · exact setSearchThreads_eq E ▸ numericSetter_spec E _ _ _
  · exact setFrisoINI_eq ▸ pathSetter_spec _
  · exact setOnTimeout_spec
  · exact setGcScanSize_eq E ▸ numericSetter_spec E _ _ _
  · exact setMinPhoneticTermLen_eq E ▸ numericSetter_spec E _ _ _

/-! ## Lemmas on the load loop -/

theorem findConfigVarFrom_mem (name : String) :
    ∀ (vars : List RSConfigVar) (k i : Nat) (v : RSConfigVar),
      findConfigVarFrom name k vars = some (i, v) → v ∈ vars ∧ v.name = name := by
  intro vars
  induction vars with
  | nil => intro k i v h; cases h
  | cons w ws ih =>
    intro k i v h
    simp only [findConfigVarFrom] at h
    by_cases hw : strcmpEq name w.name = true
    · simp only [hw, if_true, Option.some.injEq, Prod.mk.injEq] at h
      have hn : name = w.name := by simpa [strcmpEq] using hw
      rw [← h.2]
      exact ⟨List.mem_cons_self _ _, hn.symm⟩
    · simp only [hw] at h
      obtain ⟨h1, h2⟩ := ih (k + 1) i v h
      exact ⟨List.mem_cons_of_mem _ h1, h2⟩

theorem declared_hasSetter (E : Externals) (d : RSConfigVar)
    (hd : d ∈ RSGlobalConfigOptions E) : ∃ set, d.setValue = some set := by
  simp only [RSGlobalConfigOptions, List.mem_cons, List.mem_singleton, List.not_mem_nil,
    or_false] at hd
  rcases hd with h | h | h | h | h | h | h | h | h | h | h | h | h <;>
    (subst h; exact ⟨_, rfl⟩)

theorem declared_found {E : Externals} {vars : List RSConfigVar} (hT : DeclaredTable E vars)
    {name : String} {i : Nat} {v : RSConfigVar} (h : findConfigVar vars name = some (i, v)) :
    clearModified v ∈ RSGlobalConfigOptions E ∧ v.name = name ∧
      findConfigVar (RSGlobalConfigOptions E) name = some (i, clearModified v) := by
  have h1 : findConfigVar (RSGlobalConfigOptions E) name = some (i, clearModified v) := by
    rw [find_declared hT, h]; rfl
  obtain ⟨h2, h3⟩ := findConfigVarFrom_mem name _ _ _ _ h1
  exact ⟨h2, h3, h1⟩

theorem markModified_declared {E : Externals} {vars : List RSConfigVar}
    (hT : DeclaredTable E vars) (i : Nat) : DeclaredTable E (markModified vars i) := by
  unfold DeclaredTable at hT ⊢
  rw [← hT]
  unfold markModified
  clear hT
  induction vars generalizing i with
  | nil => simp
  | cons v vs ih =>
    cases i with
    | zero => simp [clearModified, VarFlags.or, RSCONFIGVAR_F_MODIFIED]
    | succ j => simp [ih j]

/-- One iteration of the load loop on a table reached from the declared one. -/
theorem loop_cases (E : Externals) (argv : List String) (g : Globals) (off : Nat)
    (err : Option String) (hT : DeclaredTable E g.vars) (hlt : off < argv.length) :
    ∃ tok, argv[off]? = some tok ∧
      ((findConfigVar g.vars (RedisModule_StringPtrLen tok) = none ∧
          ∀ fuel, ReadConfigLoop argv (fuel + 1) g off err =
            LoadResult.returned REDISMODULE_ERR
              (some ("No such configuration option `" ++ RedisModule_StringPtrLen tok ++
                "`")) g) ∨
        ∃ i v set rc c1 off1,
          findConfigVar g.vars (RedisModule_StringPtrLen tok) = some (i, v) ∧
          v.setValue = some set ∧ SetterSpec set ∧
          set g.config argv (off + 1) = some (rc, c1, off1) ∧
          off + 1 ≤ off1 ∧ off1 ≤ argv.length ∧
          (rc = REDISMODULE_OK ∨ rc = REDISMODULE_ERR ∧ c1 = g.config) ∧
          ∀ fuel, ReadConfigLoop argv (fuel + 1) g off err =
            if rc ≠ REDISMODULE_OK then
              LoadResult.returned REDISMODULE_ERR
                (some (RedisModule_StringPtrLen tok ++ ": Bad value")) { g with config := c1 }
            else
              ReadConfigLoop argv fuel { config := c1, vars := markModified g.vars i } off1
                err) := by
  obtain ⟨tok, ht⟩ := getElem?_of_lt argv off hlt
  refine ⟨tok, ht, ?_⟩
  cases hf : findConfigVar g.vars (RedisModule_StringPtrLen tok) with
  | none =>
    left
    exact ⟨rfl, fun fuel => loop_unknown argv fuel g off err tok ht hf⟩
  | some p =>
    right
    obtain ⟨i, v⟩ := p
    obtain ⟨hmem, _, _⟩ := declared_found hT hf
    obtain ⟨set, hset⟩ := declared_hasSetter E _ hmem
    have hspec := declared_setterSpec E _ hmem set hset
    have hset1 : v.setValue = some set := hset
    obtain ⟨rc, c1, off1, hr, h1, h2, h3⟩ := hspec.total g.config argv (off + 1) hlt
    exact ⟨i, v, set, rc, c1, off1, rfl, hset1, hspec, hr, h1, h2, h3,
      fun fuel => loop_step argv fuel g off err tok i v set rc c1 off1 ht hf hset1 hr⟩

/-- With fuel for the tokens left the loop returns, and more fuel changes
nothing. -/
theorem loop_fuel (E : Externals) (argv : List String) (err : Option String) :
    ∀ (fuel1 fuel2 : Nat) (g : Globals) (off : Nat), DeclaredTable E g.vars →
      argv.length - off ≤ fuel1 → argv.length - off ≤ fuel2 →
      ReadConfigLoop argv fuel1 g off err = ReadConfigLoop argv fuel2 g off err ∧
      ∃ rc e g1, ReadConfigLoop argv fuel1 g off err = LoadResult.returned rc e g1 ∧
        DeclaredTable E g1.vars := by
  intro fuel1
  induction fuel1 with
  | zero =>
    intro fuel2 g off hT h1 h2
    have hge : ¬ off < argv.length := by omega
    rw [loop_done argv 0 g off err hge, loop_done argv fuel2 g off err hge]
    exact ⟨rfl, _, _, _, rfl, hT⟩
  | succ f1 ih =>
    intro fuel2 g off hT h1 h2
    by_cases hlt : off < argv.length
    · obtain ⟨f2, rfl⟩ : ∃ f2, fuel2 = f2 + 1 := ⟨fuel2 - 1, by omega⟩
      obtain ⟨tok, _, hc⟩ := loop_cases E argv g off err hT hlt
      rcases hc with ⟨_, hl⟩ | ⟨i, v, set, rc, c1, off1, _, _, _, _, ho1, ho2, _, hl⟩
      · rw [hl f1, hl f2]
        exact ⟨rfl, _, _, _, rfl, hT⟩
      · rw [hl f1, hl f2]
        by_cases hrc : rc ≠ REDISMODULE_OK
        · rw [if_pos hrc, if_pos hrc]
          exact ⟨rfl, _, _, _, rfl, hT⟩
        · rw [if_neg hrc, if_neg hrc]
          exact ih f2 { config := c1, vars := markModified g.vars i } off1
            (markModified_declared hT i) (by omega) (by omega)
    · rw [loop_done argv (f1 + 1) g off err hlt, loop_done argv fuel2 g off err hlt]
      exact ⟨rfl, _, _, _, rfl, hT⟩

/-- A load that succeeds on `pre` runs the same way on `pre ++ suf` up to the
end of `pre`, and goes on from there. -/
theorem loop_append (E : Externals) (pre suf : List String) (err e : Option String)
    (g1 : Globals) :
    ∀ (fuel : Nat) (g : Globals) (off : Nat), DeclaredTable E g.vars → off ≤ pre.length →
      pre.length - off ≤ fuel →
      ReadConfigLoop pre fuel g off err = LoadResult.returned REDISMODULE_OK e g1 →
      e = err ∧ DeclaredTable E g1.vars ∧
      ∀ fuel2, (pre ++ suf).length - off ≤ fuel2 →
        ReadConfigLoop (pre ++ suf) fuel2 g off err =
          ReadConfigLoop (pre ++ suf) suf.length g1 pre.length err := by
  intro fuel
  induction fuel with
  | zero =>
    intro g off hT hle hf h
    have hge : ¬ off < pre.length := by omega
    have he : off = pre.length := by omega
    rw [loop_done pre 0 g off err hge] at h
    simp only [LoadResult.returned.injEq, true_and] at h
    obtain ⟨h1, h2⟩ := h
    subst h2
    subst he
    refine ⟨h1.symm, hT, fun fuel2 hf2 => ?_⟩
    exact (loop_fuel E (pre ++ suf) err fuel2 suf.length g pre.length hT hf2
      (by simp)).1
  | succ f ih =>
    intro g off hT hle hf h
    by_cases hlt : off < pre.length
    · obtain ⟨tok, ht, hc⟩ := loop_cases E pre g off err hT hlt
      have hlt2 : off < (pre ++ suf).length := by simp; omega
      have ht2 : (pre ++ suf)[off]? = some tok := by
        rw [List.getElem?_append_left hlt]; exact ht
      rcases hc with ⟨_, hl⟩ | ⟨i, v, set, rc, c1, off1, hfind, hsv, hspec, hr, ho1, ho2, _, hl⟩
      · rw [hl f] at h
        simp [REDISMODULE_OK, REDISMODULE_ERR] at h
      · rw [hl f] at h
        by_cases hrc : rc ≠ REDISMODULE_OK
        · rw [if_pos hrc] at h
          simp [REDISMODULE_OK, REDISMODULE_ERR] at h
        · rw [if_neg hrc] at h
          have hrc1 : rc = REDISMODULE_OK := by
            by_contra hx; exact hrc hx
          subst hrc1
          have hr2 := hspec.stable g.config pre suf (off + 1) c1 off1 hlt hr
          obtain ⟨h1, h2, h3⟩ := ih { config := c1, vars := markModified g.vars i } off1
            (markModified_declared hT i) ho2 (by omega) h
          refine ⟨h1, h2, fun fuel2 hf2 => ?_⟩
          obtain ⟨f2, rfl⟩ : ∃ f2, fuel2 = f2 + 1 := ⟨fuel2 - 1, by omega⟩
          rw [loop_step (pre ++ suf) f2 g off err tok i v set REDISMODULE_OK c1 off1 ht2 hfind
            hsv hr2]
          simp only [ne_eq, not_true_eq_false, if_false]
          exact h3 f2 (by omega)
    · have he : off = pre.length := by omega
      rw [loop_done pre (f + 1) g off err hlt] at h
      simp only [LoadResult.returned.injEq, true_and] at h
      obtain ⟨h1, h2⟩ := h
      subst h2
      subst he
      refine ⟨h1.symm, hT, fun fuel2 hf2 => ?_⟩
      exact (loop_fuel E (pre ++ suf) err fuel2 suf.length g pre.length hT hf2
        (by simp)).1

/-- `ReadConfig` on `pre ++ suf` after a successful `ReadConfig` on `pre`. -/
theorem ReadConfig_append (E : Externals) (rsMinThreads : Bool) (g g1 : Globals)
    (pre suf : List String) (e : Option String) (hT : DeclaredTable E g.vars)
    (h : ReadConfig rsMinThreads g pre = LoadResult.returned REDISMODULE_OK e g1) :
    e = none ∧ DeclaredTable E g1.vars ∧
    ReadConfig rsMinThreads g (pre ++ suf) =
      ReadConfigLoop (pre ++ suf) suf.length g1 pre.length none := by
  unfold ReadConfig at h ⊢
  obtain ⟨h1, h2, h3⟩ := loop_append E pre suf none e g1 pre.length
    { g with config := minThreadsOverride rsMinThreads g.config } 0 hT (Nat.zero_le _)
    (by omega) h
  exact ⟨h1, h2, h3 _ (by omega)⟩

/-- A returning load keeps the table a declared one. -/
theorem ReadConfig_declared (E : Externals) (rsMinThreads : Bool) (g g1 : Globals)
    (argv : List String) (rc : Int) (e : Option String) (hT : DeclaredTable E g.vars)
    (h : ReadConfig rsMinThreads g argv = LoadResult.returned rc e g1) :
    DeclaredTable E g1.vars := by
  unfold ReadConfig at h
  obtain ⟨_, rc2, e2, g2, h2, hd⟩ := loop_fuel E argv none argv.length argv.length
    { g with config := minThreadsOverride rsMinThreads g.config } 0 hT (by omega) (by omega)
  rw [h2] at h
  simp only [LoadResult.returned.injEq] at h
  rw [← h.2.2]
  exact hd

theorem reachable_declared {E : Externals} {g : Globals} (h : Reachable E g) :
    DeclaredTable E g.vars := by
  induction h with
  | start config => exact declared_start E
  | load rsMinThreads argv rc err _ hload ih =>
    exact ReadConfig_declared E rsMinThreads _ _ argv rc err ih hload

/-! ## Facts about the declared table -/

theorem declared_find_self (E : Externals) (d : RSConfigVar)
    (hd : d ∈ RSGlobalConfigOptions E) :
    ∃ i, findConfigVar (RSGlobalConfigOptions E) d.name = some (i, d) := by
  simp only [RSGlobalConfigOptions, List.mem_cons, List.mem_singleton, List.not_mem_nil,
    or_false] at hd
  rcases hd with h | h | h | h | h | h | h | h | h | h | h | h | h <;>
    (subst h; exact ⟨_, rfl⟩)

theorem declared_name_cstr (E : Externals) (d : RSConfigVar)
    (hd : d ∈ RSGlobalConfigOptions E) : RedisModule_StringPtrLen d.name = d.name := by
  simp only [RSGlobalConfigOptions, List.mem_cons, List.mem_singleton, List.not_mem_nil,
    or_false] at hd
  rcases hd with h | h | h | h | h | h | h | h | h | h | h | h | h <;>
    (subst h; dsimp only; decide)

theorem declared_failsAtEnd (E : Externals) (d : RSConfigVar)
    (hd : d ∈ RSGlobalConfigOptions E) (hflag : d.flags.test RSCONFIGVAR_F_FLAG = false)
    (set : Setter) (hs : d.setValue = some set) : FailsAtEnd set := by
  simp only [RSGlobalConfigOptions, List.mem_cons, List.mem_singleton, List.not_mem_nil,
    or_false] at hd
  rcases hd with h | h | h | h | h | h | h | h | h | h | h | h | h <;>
    (subst h; simp only [Option.some.injEq] at hs; subst hs)
  · exact setExtLoad_failsAtEnd
  · exact absurd hflag (by decide)
  · exact absurd hflag (by decide)
  · exact setMinPrefix_eq E ▸ numericSetter_failsAtEnd E _ _ _
  · exact setMaxDocTableSize_eq E ▸ numericSetter_failsAtEnd E _ _ _
  · exact setMaxExpansions_eq E ▸ numericSetter_failsAtEnd E _ _ _
  · exact setTimeout_eq E ▸ numericSetter_failsAtEnd E _ _ _
  · exact setIndexThreads_eq E ▸ numericSetter_failsAtEnd E _ _ _
  · exact setSearchThreads_eq E ▸ numericSetter_failsAtEnd E _ _ _
  · exact setFrisoINI_eq ▸ pathSetter_failsAtEnd _
  · exact setOnTimeout_failsAtEnd
  · exact setGcScanSize_eq E ▸ numericSetter_failsAtEnd E _ _ _
  · exact setMinPhoneticTermLen_eq E ▸ numericSetter_failsAtEnd E _ _ _

theorem findConfigVarFrom_getElem (name : String) :
    ∀ (vars : List RSConfigVar) (k i : Nat) (v : RSConfigVar),
      findConfigVarFrom name k vars = some (i, v) → k ≤ i ∧ vars[i - k]? = some v := by
  intro vars
  induction vars with
  | nil => intro k i v h; cases h
  | cons w ws ih =>
    intro k i v h
    simp only [findConfigVarFrom] at h
    by_cases hw : strcmpEq name w.name = true
    · simp only [hw, if_true, Option.some.injEq, Prod.mk.injEq] at h
      obtain ⟨h1, h2⟩ := h
      subst h1
      subst h2
      simp
    · simp only [hw] at h
      obtain ⟨h1, h2⟩ := ih (k + 1) i v h
      refine ⟨by omega, ?_⟩
      have : i - k = (i - (k + 1)) + 1 := by omega
      rw [this, List.getElem?_cons_succ]
      exact h2

theorem modifiedFlagOf_markModified {E : Externals} {vars : List RSConfigVar}
    (hT : DeclaredTable E vars) {name : String} {i : Nat} {d : RSConfigVar}
    (hd : findConfigVar (RSGlobalConfigOptions E) name = some (i, d)) :
    modifiedFlagOf (markModified vars i) name = some true := by
  obtain ⟨v, hv, _⟩ := find_declared_some (markModified_declared hT i) hd
  obtain ⟨_, hg⟩ := findConfigVarFrom_getElem name _ _ _ _ hv
  unfold modifiedFlagOf
  rw [hv]
  simp only [Nat.sub_zero, markModified, List.getElem?_modify] at hg
  cases hx : vars[i]? with
  | none => rw [hx] at hg; simp at hg
  | some w =>
    rw [hx] at hg
    simp at hg
    rw [← hg]
    simp [VarFlags.or, RSCONFIGVAR_F_MODIFIED]

/-! ## Bulk load -/

/-- C1, amended. On a table reached from the declared one and without the
environment signal, when the C string of the first token (its characters
before the first NUL) is the name of no declared descriptor, `ReadConfig` fails
with the unknown-option message naming that C string and leaves the globals,
configuration and flags, as they were. -/
theorem ReadConfig_unknown_option (E : Externals) (g : Globals) (tok : String)
    (rest : List String) (hT : DeclaredTable E g.vars)
    (hname : ∀ d ∈ RSGlobalConfigOptions E, d.name ≠ RedisModule_StringPtrLen tok) :
    ReadConfig false g (tok :: rest) =
      LoadResult.returned REDISMODULE_ERR
        (some ("No such configuration option `" ++ RedisModule_StringPtrLen tok ++ "`")) g := by
  have h1 : findConfigVar (RSGlobalConfigOptions E) (RedisModule_StringPtrLen tok) = none :=
    findConfigVarFrom_none _ _ 0 hname
  have h2 := find_declared_none hT h1
  unfold ReadConfig
  exact loop_unknown (tok :: rest) rest.length
    { g with config := minThreadsOverride false g.config } 0 none tok (by simp) h2

/-- Instance of C1 on the token list holding `NOSUCHOPTION` alone, from the
sample globals. -/
theorem ReadConfig_unknown_option_witness :
    DeclaredTable sampleHost sampleGlobals.vars ∧
    (∀ d ∈ RSGlobalConfigOptions sampleHost,
      d.name ≠ RedisModule_StringPtrLen "NOSUCHOPTION") ∧
    ReadConfig false sampleGlobals ["NOSUCHOPTION"] =
      LoadResult.returned REDISMODULE_ERR
        (some ("No such configuration option `" ++
          RedisModule_StringPtrLen "NOSUCHOPTION" ++ "`")) sampleGlobals :=
  ⟨declared_start sampleHost, by decide,
    ReadConfig_unknown_option sampleHost sampleGlobals "NOSUCHOPTION" []
      (declared_start sampleHost) (by decide)⟩

/-- C1 as stated fails: a first token that differs from every declared name
only after a NUL byte is looked up by its C string, here `MINPREFIX`, and the
load fails with the bad-value message instead. -/
theorem ReadConfig_unknown_option_nul :
    (∀ d ∈ RSGlobalConfigOptions sampleHost, d.name ≠ "MINPREFIX\x00zz") ∧
    (ReadConfig false sampleGlobals ["MINPREFIX\x00zz"]).observe =
      some (REDISMODULE_ERR, some "MINPREFIX: Bad value", sampleConfig,
        (RSGlobalConfigOptions sampleHost).map (fun d => d.flags)) := by
  decide

/-- C2. When the value token converts to `n`, `ReadConfig` on `MINPREFIX` and
that token succeeds exactly when `1 ≤ n`: then `minTermPrefix` is `n` and the
MODIFIED bit of `MINPREFIX` is set; otherwise it returns an error, the
configuration is the one the environment block left, with `minTermPrefix`
untouched, and no flag is written, so that on the table as declared the
MODIFIED bit of `MINPREFIX` is clear. -/
theorem ReadConfig_minprefix_range (E : Externals) (rsMinThreads : Bool) (g : Globals)
    (tok : String) (n : Int) (hT : DeclaredTable E g.vars)
    (hn : RedisModule_StringToLongLong E tok = some n) :
    (1 ≤ n →
      ReadConfig rsMinThreads g ["MINPREFIX", tok] =
        LoadResult.returned REDISMODULE_OK none
          { config := { minThreadsOverride rsMinThreads g.config with minTermPrefix := n },
            vars := markModified g.vars 3 } ∧
      modifiedFlagOf (markModified g.vars 3) "MINPREFIX" = some true) ∧
    (¬ 1 ≤ n →
      ReadConfig rsMinThreads g ["MINPREFIX", tok] =
        LoadResult.returned REDISMODULE_ERR (some "MINPREFIX: Bad value")
          { config := minThreadsOverride rsMinThreads g.config, vars := g.vars } ∧
      (minThreadsOverride rsMinThreads g.config).minTermPrefix = g.config.minTermPrefix ∧
      (g.vars = RSGlobalConfigOptions E → modifiedFlagOf g.vars "MINPREFIX" = some false)) := by
  have hfind : findConfigVar (RSGlobalConfigOptions E) "MINPREFIX" = some (3, _) := rfl
  obtain ⟨v, hv, hc⟩ := find_declared_some hT hfind
  have hs := setValue_of_clear hc
  have hr := readLongLongLimit_lt E ["MINPREFIX", tok] 1 1 LLONG_MAX tok rfl
  rw [hn] at hr
  constructor
  · intro h1
    have hlt : ¬ n < 1 := by omega
    have hset : setMinPrefix E (minThreadsOverride rsMinThreads g.config) ["MINPREFIX", tok]
        (0 + 1) = some (REDISMODULE_OK,
          { minThreadsOverride rsMinThreads g.config with minTermPrefix := n }, 2) := by
      simp [hlt] at hr
      simp [setMinPrefix, hr]
    refine ⟨?_, modifiedFlagOf_markModified hT hfind⟩
    unfold ReadConfig
    simp only [List.length_cons, List.length_nil]
    rw [loop_step _ _ { config := minThreadsOverride rsMinThreads g.config, vars := g.vars }
      _ _ "MINPREFIX" 3 v _ _ _ _ rfl hv hs hset]
    simp [REDISMODULE_OK, loop_done]
  · intro h1
    have hlt : n < 1 := by omega
    have hset : setMinPrefix E (minThreadsOverride rsMinThreads g.config) ["MINPREFIX", tok]
        (0 + 1) = some (REDISMODULE_ERR, minThreadsOverride rsMinThreads g.config, 2) := by
      simp [hlt, LLONG_MIN] at hr
      simp [setMinPrefix, hr]
    refine ⟨?_, ?_, ?_⟩
    · unfold ReadConfig
      simp only [List.length_cons, List.length_nil]
      rw [loop_step _ _ { config := minThreadsOverride rsMinThreads g.config, vars := g.vars }
        _ _ "MINPREFIX" 3 v _ _ _ _ rfl hv hs hset]
      simp [REDISMODULE_OK, REDISMODULE_ERR]
      decide
    · cases rsMinThreads <;> rfl
    · intro hg
      rw [hg]
      rfl

/-- Instances of C2 from the sample globals: the value `3` is accepted and
the value `0` is rejected. -/
theorem ReadConfig_minprefix_range_witness :
    DeclaredTable sampleHost sampleGlobals.vars ∧
    RedisModule_StringToLongLong sampleHost "3" = some 3 ∧
    RedisModule_StringToLongLong sampleHost "0" = some 0 ∧
    (ReadConfig false sampleGlobals ["MINPREFIX", "3"] =
      LoadResult.returned REDISMODULE_OK none
        { config := { minThreadsOverride false sampleGlobals.config with minTermPrefix := 3 },
          vars := markModified sampleGlobals.vars 3 } ∧
      modifiedFlagOf (markModified sampleGlobals.vars 3) "MINPREFIX" = some true) ∧
    (ReadConfig false sampleGlobals ["MINPREFIX", "0"] =
      LoadResult.returned REDISMODULE_ERR (some "MINPREFIX: Bad value")
        { config := minThreadsOverride false sampleGlobals.config,
          vars := sampleGlobals.vars } ∧
      (minThreadsOverride false sampleGlobals.config).minTermPrefix =
        sampleGlobals.config.minTermPrefix ∧
      (sampleGlobals.vars = RSGlobalConfigOptions sampleHost →
        modifiedFlagOf sampleGlobals.vars "MINPREFIX" = some false)) :=
  ⟨declared_start sampleHost, by decide, by decide,
    (ReadConfig_minprefix_range sampleHost false sampleGlobals "3" 3
      (declared_start sampleHost) (by decide)).1 (by decide),
    (ReadConfig_minprefix_range sampleHost false sampleGlobals "0" 0
      (declared_start sampleHost) (by decide)).2 (by decide)⟩

/-- C9. With the environment signal and a value token that converts to
`n ≥ 1`, `ReadConfig` on `INDEX_THREADS` and that token succeeds and ends with
`indexPoolSize = n`, `searchPoolSize = 1` and `poolSizeNoAuto = 1`. -/
theorem ReadConfig_index_threads_after_override (E : Externals) (g : Globals) (tok : String)
    (n : Int) (hT : DeclaredTable E g.vars)
    (hn : RedisModule_StringToLongLong E tok = some n) (h1 : 1 ≤ n) :
    ∃ g1, ReadConfig true g ["INDEX_THREADS", tok] =
        LoadResult.returned REDISMODULE_OK none g1 ∧
      g1.config =
        { g.config with searchPoolSize := 1, indexPoolSize := n, poolSizeNoAuto := 1 } ∧
      g1.config.indexPoolSize = n ∧ g1.config.searchPoolSize = 1 ∧
      g1.config.poolSizeNoAuto = 1 ∧ g1.vars = markModified g.vars 7 := by
  have hfind : findConfigVar (RSGlobalConfigOptions E) "INDEX_THREADS" = some (7, _) := rfl
  obtain ⟨v, hv, hc⟩ := find_declared_some hT hfind
  have hs := setValue_of_clear hc
  have hr := readLongLongLimit_lt E ["INDEX_THREADS", tok] 1 1 LLONG_MAX tok rfl
  rw [hn] at hr
  have hlt : ¬ n < 1 := by omega
  have hsz : toSizeT n = n := toSizeT_of_pos h1 (stringToLongLong_range hn).2
  have hset : setIndexThreads E (minThreadsOverride true g.config) ["INDEX_THREADS", tok]
      (0 + 1) = some (REDISMODULE_OK,
        { minThreadsOverride true g.config with indexPoolSize := n, poolSizeNoAuto := 1 },
        2) := by
    simp [hlt] at hr
    simp [setIndexThreads, hr, hsz]
  refine ⟨Globals.mk
      { minThreadsOverride true g.config with indexPoolSize := n, poolSizeNoAuto := 1 }
      (markModified g.vars 7), ?_, rfl, rfl, rfl, rfl, rfl⟩
  unfold ReadConfig
  simp only [List.length_cons, List.length_nil]
  rw [loop_step _ _ { config := minThreadsOverride true g.config, vars := g.vars }
    _ _ "INDEX_THREADS" 7 v _ _ _ _ rfl hv hs hset]
  simp [REDISMODULE_OK, loop_done]

/-- Instance of C9 with the value `4`, from the sample globals. -/
theorem ReadConfig_index_threads_after_override_witness :
    DeclaredTable sampleHost sampleGlobals.vars ∧
    RedisModule_StringToLongLong sampleHost "4" = some 4 ∧ (1 : Int) ≤ 4 ∧
    ∃ g1, ReadConfig true sampleGlobals ["INDEX_THREADS", "4"] =
        LoadResult.returned REDISMODULE_OK none g1 ∧
      g1.config =
        { sampleGlobals.config with
          searchPoolSize := 1, indexPoolSize := 4, poolSizeNoAuto := 1 } ∧
      g1.config.indexPoolSize = 4 ∧ g1.config.searchPoolSize = 1 ∧
      g1.config.poolSizeNoAuto = 1 ∧ g1.vars = markModified sampleGlobals.vars 7 :=
  ⟨declared_start sampleHost, by decide, by decide,
    ReadConfig_index_threads_after_override sampleHost sampleGlobals "4" 4
      (declared_start sampleHost) (by decide) (by decide)⟩

/-- C10. `ReadConfig` on the empty token list returns `REDISMODULE_OK` with `*err`
NULL; without the environment signal the globals, configuration and flags,
are unchanged, and with it they differ from the input only in
`searchPoolSize = 1`, `indexPoolSize = 1` and `poolSizeNoAuto = 1`. -/
theorem ReadConfig_empty (g : Globals) :
    ReadConfig false g [] = LoadResult.returned REDISMODULE_OK none g ∧
    ReadConfig true g [] = LoadResult.returned REDISMODULE_OK none
      { g with config :=
          { g.config with searchPoolSize := 1, indexPoolSize := 1, poolSizeNoAuto := 1 } } := by
  constructor <;> rfl

/-- C3, amended. The descriptors without the boolean-flag bit are the eleven
options that take a value. For each of them, when `ReadConfig` succeeds on the
tokens `pre` and leaves the globals `g1`, then on `pre` followed by the
option name as last token it fails with the message `<name>: Bad value`, the
one it gives for every setter failure, and leaves exactly `g1`: the
configuration and the flags are as the tokens before the name left them. -/
theorem ReadConfig_missing_value (E : Externals) :
    ((RSGlobalConfigOptions E).filter (fun d => !d.flags.test RSCONFIGVAR_F_FLAG)).map
        (fun d => d.name) =
      ["EXTLOAD", "MINPREFIX", "MAXDOCTABLESIZE", "MAXEXPANSIONS", "TIMEOUT", "INDEX_THREADS",
        "SEARCH_THREADS", "FRISOINI", "ON_TIMEOUT", "GCSCANSIZE", "MIN_PHONETIC_TERM_LEN"] ∧
    ∀ (rsMinThreads : Bool) (g g1 : Globals) (pre : List String) (e : Option String)
      (d : RSConfigVar), DeclaredTable E g.vars → d ∈ RSGlobalConfigOptions E →
      d.flags.test RSCONFIGVAR_F_FLAG = false →
      ReadConfig rsMinThreads g pre = LoadResult.returned REDISMODULE_OK e g1 →
      ReadConfig rsMinThreads g (pre ++ [d.name]) =
        LoadResult.returned REDISMODULE_ERR (some (d.name ++ ": Bad value")) g1 := by
  refine ⟨rfl, ?_⟩
  intro rsMinThreads g g1 pre e d hT hd hflag hpre
  obtain ⟨_, hT1, happ⟩ := ReadConfig_append E rsMinThreads g g1 pre [d.name] e hT hpre
  rw [happ]
  obtain ⟨i, hi⟩ := declared_find_self E d hd
  obtain ⟨v, hv, hc⟩ := find_declared_some hT1 hi
  obtain ⟨set, hset⟩ := declared_hasSetter E d hd
  have hsv : v.setValue = some set := by rw [setValue_of_clear hc, hset]
  have hend := declared_failsAtEnd E d hd hflag set hset g1.config (pre ++ [d.name])
  have hlen : (pre ++ [d.name]).length = pre.length + 1 := by simp
  rw [hlen] at hend
  have ht : (pre ++ [d.name])[pre.length]? = some d.name := by
    rw [List.getElem?_append_right (le_refl _)]; simp
  have hcs := declared_name_cstr E d hd
  have hv1 : findConfigVar g1.vars (RedisModule_StringPtrLen d.name) = some (i, v) := by
    rw [hcs]; exact hv
  have hstep := loop_step (pre ++ [d.name]) 0 g1 pre.length none d.name i v set
    REDISMODULE_ERR g1.config (pre.length + 1) ht hv1 hsv hend
  simp only [List.length_singleton, Nat.zero_add]
  rw [hstep, hcs, if_pos (by decide)]

/-- Instance of C3 with the empty list before the name `MINPREFIX`, from the
sample globals. -/
theorem ReadConfig_missing_value_witness :
    DeclaredTable sampleHost sampleGlobals.vars ∧
    (RSConfigVar.mk "MINPREFIX" "Set the minimum prefix for expansions (`*`)"
      (some (setMinPrefix sampleHost)) (some getMinPrefix) noFlags) ∈
        RSGlobalConfigOptions sampleHost ∧
    noFlags.test RSCONFIGVAR_F_FLAG = false ∧
    ReadConfig false sampleGlobals [] = LoadResult.returned REDISMODULE_OK none sampleGlobals ∧
    ReadConfig false sampleGlobals ([] ++ ["MINPREFIX"]) =
      LoadResult.returned REDISMODULE_ERR (some ("MINPREFIX" ++ ": Bad value")) sampleGlobals :=
  ⟨declared_start sampleHost, by simp [RSGlobalConfigOptions], rfl, rfl,
    (ReadConfig_missing_value sampleHost).2 false sampleGlobals sampleGlobals [] none
      (RSConfigVar.mk "MINPREFIX" "Set the minimum prefix for expansions (`*`)"
        (some (setMinPrefix sampleHost)) (some getMinPrefix) noFlags)
      (declared_start sampleHost) (by simp [RSGlobalConfigOptions]) rfl rfl⟩

/-- C3 as stated fails. The list `EXTLOAD`, `MINPREFIX` ends with the name of
an option that takes a value and has no token after it, yet `ReadConfig`
succeeds on it, because `EXTLOAD` takes the last token as its value. And on
`MINPREFIX`, `3`, `MINPREFIX` the load fails at the last name, but the field of
the option is not what it was before the call: the first two tokens have set
it to 3. -/
theorem ReadConfig_last_name_consumed :
    (ReadConfig false sampleGlobals ["EXTLOAD", "MINPREFIX"]).observe =
      some (REDISMODULE_OK, none, { sampleConfig with extLoad := some "MINPREFIX" },
        (markModified (RSGlobalConfigOptions sampleHost) 0).map (fun d => d.flags)) ∧
    sampleConfig.minTermPrefix = 2 ∧
    (ReadConfig false sampleGlobals ["MINPREFIX", "3", "MINPREFIX"]).observe =
      some (REDISMODULE_ERR, some "MINPREFIX: Bad value",
        { sampleConfig with minTermPrefix := 3 },
        (markModified (RSGlobalConfigOptions sampleHost) 3).map (fun d => d.flags)) := by
  decide

/-! ## Runtime set -/

/-- C4. The descriptors flagged IMMUTABLE are `EXTLOAD`, `SAFEMODE`,
`MAXDOCTABLESIZE`, `INDEX_THREADS`, `SEARCH_THREADS` and `FRISOINI`. On the
table left by any sequence of `ReadConfig` calls, for every configuration,
token list and cursor, `RSConfig_SetOption` with such a name returns
`REDISMODULE_ERR`, sets the error `Option not settable at runtime` with
`SET_ERR`, which stores that message in a `*err` that was NULL, and leaves the
configuration and the cursor unchanged. -/
theorem RSConfig_SetOption_immutable (E : Externals) :
    ((RSGlobalConfigOptions E).filter
        (fun d => d.flags.test RSCONFIGVAR_F_IMMUTABLE)).map (fun d => d.name) =
      ["EXTLOAD", "SAFEMODE", "MAXDOCTABLESIZE", "INDEX_THREADS", "SEARCH_THREADS",
        "FRISOINI"] ∧
    SET_ERR none "Option not settable at runtime" = some "Option not settable at runtime" ∧
    ∀ (g : Globals) (d : RSConfigVar) (config : RSConfig) (argv : List String) (offset : Nat)
      (err : Option String), Reachable E g → d ∈ RSGlobalConfigOptions E →
      d.flags.test RSCONFIGVAR_F_IMMUTABLE = true →
      RSConfig_SetOption config g.vars d.name argv offset err =
        some (REDISMODULE_ERR, config, offset,
          SET_ERR err "Option not settable at runtime") := by
  refine ⟨rfl, rfl, ?_⟩
  intro g d config argv offset err hR hd himm
  have hT := reachable_declared hR
  obtain ⟨i, hi⟩ := declared_find_self E d hd
  obtain ⟨v, hv, hc⟩ := find_declared_some hT hi
  have hfl : v.flags.test RSCONFIGVAR_F_IMMUTABLE = true := by
    rw [← hc] at himm
    simpa [clearModified, VarFlags.test, RSCONFIGVAR_F_IMMUTABLE] using himm
  unfold RSConfig_SetOption
  rw [hv]
  simp only [hfl, if_true]

/-- Instance of C4 for `EXTLOAD` on the table left by a load of `MINPREFIX`
with the value `3`. -/
theorem RSConfig_SetOption_immutable_witness :
    Reachable sampleHost
      { config := { sampleConfig with minTermPrefix := 3 },
        vars := markModified (RSGlobalConfigOptions sampleHost) 3 } ∧
    (RSConfigVar.mk "EXTLOAD" "Load extension scoring/expansion module" (some setExtLoad)
      (some getExtLoad) RSCONFIGVAR_F_IMMUTABLE) ∈ RSGlobalConfigOptions sampleHost ∧
    RSCONFIGVAR_F_IMMUTABLE.test RSCONFIGVAR_F_IMMUTABLE = true ∧
    RSConfig_SetOption sampleConfig (markModified (RSGlobalConfigOptions sampleHost) 3)
        "EXTLOAD" ["/lib/ext.so"] 0 none =
      some (REDISMODULE_ERR, sampleConfig, 0,
        SET_ERR none "Option not settable at runtime") :=
  have hR : Reachable sampleHost
      { config := { sampleConfig with minTermPrefix := 3 },
        vars := markModified (RSGlobalConfigOptions sampleHost) 3 } :=
    Reachable.load false ["MINPREFIX", "3"] REDISMODULE_OK none (Reachable.start sampleConfig)
      (by rfl)
  ⟨hR, by simp [RSGlobalConfigOptions], rfl,
    (RSConfig_SetOption_immutable sampleHost).2.2 _
      (RSConfigVar.mk "EXTLOAD" "Load extension scoring/expansion module" (some setExtLoad)
        (some getExtLoad) RSCONFIGVAR_F_IMMUTABLE)
      sampleConfig ["/lib/ext.so"] 0 none hR (by simp [RSGlobalConfigOptions]) rfl⟩

/-- C5, amended. On a table reached from the declared one,
`RSConfig_SetOption` with name `ON_TIMEOUT`, the single token `t` and cursor 0
succeeds exactly when the C string of `t` (its characters before the first
NUL) equals `RETURN` or `FAIL` ignoring ASCII letter case; the timeout policy
then becomes RETURN or FAIL respectively. For every other token it returns
`REDISMODULE_ERR` and leaves the configuration unchanged. In both cases the
cursor ends at 1. -/
theorem RSConfig_SetOption_onTimeout (E : Externals) (options : List RSConfigVar)
    (config : RSConfig) (t : String) (err : Option String) (hT : DeclaredTable E options) :
    RSConfig_SetOption config options "ON_TIMEOUT" [t] 0 err =
      if strcasecmpEq (RedisModule_StringPtrLen t) "RETURN" then
        some (REDISMODULE_OK, { config with timeoutPolicy := TimeoutPolicy_Return }, 1, err)
      else if strcasecmpEq (RedisModule_StringPtrLen t) "FAIL" then
        some (REDISMODULE_OK, { config with timeoutPolicy := TimeoutPolicy_Fail }, 1, err)
      else some (REDISMODULE_ERR, config, 1, err) := by
  have hfind : findConfigVar (RSGlobalConfigOptions E) "ON_TIMEOUT" = some (10, _) := rfl
  obtain ⟨v, hv, hc⟩ := find_declared_some hT hfind
  have hs := setValue_of_clear hc
  have hfl : v.flags.test RSCONFIGVAR_F_IMMUTABLE = false := by
    have := congrArg (fun d => d.flags.immutable) hc
    simp [clearModified, noFlags] at this
    simp [VarFlags.test, RSCONFIGVAR_F_IMMUTABLE, this]
  have hset := setOnTimeout_at config [t] 0 t rfl
  unfold RSConfig_SetOption
  rw [hv]
  simp only [hfl, hs, hset]
  by_cases h1 : strcasecmpEq (RedisModule_StringPtrLen t) "RETURN" = true
  · simp [h1]
  · by_cases h2 : strcasecmpEq (RedisModule_StringPtrLen t) "FAIL" = true
    · simp [h1, h2]
    · simp [h1, h2]

/-- Instances of C5 on the declared table: the token `return` sets the policy
RETURN and the token `bogus` is rejected. -/
theorem RSConfig_SetOption_onTimeout_witness :
    DeclaredTable sampleHost (RSGlobalConfigOptions sampleHost) ∧
    RSConfig_SetOption { sampleConfig with timeoutPolicy := TimeoutPolicy_Fail }
        (RSGlobalConfigOptions sampleHost) "ON_TIMEOUT" ["return"] 0 none =
      some (REDISMODULE_OK, sampleConfig, 1, none) ∧
    RSConfig_SetOption sampleConfig (RSGlobalConfigOptions sampleHost) "ON_TIMEOUT" ["bogus"] 0
        none =
      some (REDISMODULE_ERR, sampleConfig, 1, none) :=
  ⟨declared_start sampleHost,
    (RSConfig_SetOption_onTimeout sampleHost (RSGlobalConfigOptions sampleHost)
      { sampleConfig with timeoutPolicy := TimeoutPolicy_Fail } "return" none
      (declared_start sampleHost)).trans (by decide),
    (RSConfig_SetOption_onTimeout sampleHost (RSGlobalConfigOptions sampleHost) sampleConfig
      "bogus" none (declared_start sampleHost)).trans (by decide)⟩

/-- C5 as stated fails: the token `fail` followed by a NUL and more bytes
equals neither `RETURN` nor `FAIL` ignoring ASCII letter case, yet the call
succeeds and sets the policy to FAIL. -/
theorem RSConfig_SetOption_onTimeout_nul :
    strcasecmpEq "fail\x00zz" "RETURN" = false ∧ strcasecmpEq "fail\x00zz" "FAIL" = false ∧
    RSConfig_SetOption sampleConfig (RSGlobalConfigOptions sampleHost) "ON_TIMEOUT"
        ["fail\x00zz"] 0 none =
      some (REDISMODULE_OK, { sampleConfig with timeoutPolicy := TimeoutPolicy_Fail }, 1,
        none) := by
  decide

/-! ## Introspection -/

theorem declared_getter (E : Externals) (d : RSConfigVar) (hd : d ∈ RSGlobalConfigOptions E) :
    ∃ get, d.getValue = some get ∧ ∀ config : RSConfig,
      (get config = none ↔
        (d.name = "EXTLOAD" ∧ config.extLoad = none) ∨
        (d.name = "FRISOINI" ∧ config.frisoIni = none)) := by
  simp only [RSGlobalConfigOptions, List.mem_cons, List.mem_singleton, List.not_mem_nil,
    or_false] at hd
  rcases hd with h | h | h | h | h | h | h | h | h | h | h | h | h <;>
    (subst h; refine ⟨_, rfl, fun config => ?_⟩)
  · cases hx : config.extLoad <;> simp [getExtLoad, hx]
  · simp [getSafemode, booleanGetter]
  · simp [getNoGc, booleanGetter]
  · simp [getMinPrefix]
  · simp [getMaxDocTableSize]
  · simp [getMaxExpansions]
  · simp [getTimeout]
  · simp [getIndexthreads]
  · simp [getSearchThreads]
  · cases hx : config.frisoIni <;> simp [getFrisoINI, hx]
  · simp [getOnTimeout]
  · simp [getGcScanSize]
  · simp [getMinPhoneticTermLen]

theorem clearModified_mem {E : Externals} {options : List RSConfigVar}
    (hT : DeclaredTable E options) {v : RSConfigVar} (hv : v ∈ options) :
    clearModified v ∈ RSGlobalConfigOptions E := by
  rw [← hT]
  exact List.mem_map_of_mem clearModified hv

theorem dumpConfigOption_eq (config : RSConfig) (v : RSConfigVar) (ctx : List Reply)
    (isHelp : Bool) (get : Getter) (hg : v.getValue = some get) :
    dumpConfigOption config v ctx isHelp = some (ctx ++ entryReplies config isHelp v) := by
  unfold dumpConfigOption entryReplies RSConfigVar.serialize
  rw [hg]
  cases isHelp <;> cases hx : get config <;> simp [hx]

theorem dumpAllOptions_eq (config : RSConfig) (isHelp : Bool) :
    ∀ (vars : List RSConfigVar) (ctx : List Reply) (n : Nat),
      (∀ v ∈ vars, ∃ get, v.getValue = some get) →
      dumpAllOptions config isHelp vars ctx n =
        some (ctx ++ (vars.map (entryReplies config isHelp)).flatten, n + vars.length) := by
  intro vars
  induction vars with
  | nil => intro ctx n _; simp [dumpAllOptions]
  | cons v vs ih =>
    intro ctx n h
    obtain ⟨get, hg⟩ := h v (List.mem_cons_self _ _)
    simp only [dumpAllOptions, dumpConfigOption_eq config v ctx isHelp get hg]
    rw [ih _ _ (fun w hw => h w (List.mem_cons_of_mem _ hw))]
    simp [Nat.add_comm, Nat.add_left_comm]

theorem decodeFrom_append :
    ∀ (a b : List Reply) (st : DecodeState),
      decodeFrom st (a ++ b) =
        match decodeFrom st a with
        | some st1 => decodeFrom st1 b
        | none => none := by
  intro a
  induction a with
  | nil => intro b st; rfl
  | cons r rs ih =>
    intro b st
    simp only [List.cons_append, decodeFrom]
    cases decodeStep st r with
    | none => rfl
    | some st1 => exact ih b st1

theorem decodeFrom_entry (config : RSConfig) (isHelp : Bool) (v : RSConfigVar)
    (done : List ReplyValue) (opened : List (List ReplyValue)) :
    decodeFrom { done := done, opened := opened } (entryReplies config isHelp v) =
      some (DecodeState.push { done := done, opened := opened }
        (entryValue config isHelp v)) := by
  unfold entryReplies entryValue
  cases isHelp <;> cases v.serialize config <;> cases opened <;> rfl

theorem decodeFrom_entries (config : RSConfig) (isHelp : Bool) :
    ∀ (vars : List RSConfigVar) (done top : List ReplyValue)
      (rest : List (List ReplyValue)),
      decodeFrom { done := done, opened := top :: rest }
          (vars.map (entryReplies config isHelp)).flatten =
        some { done := done,
               opened := ((vars.map (entryValue config isHelp)).reverse ++ top) :: rest } := by
  intro vars
  induction vars with
  | nil => intro done top rest; rfl
  | cons v vs ih =>
    intro done top rest
    simp only [List.map_cons, List.flatten_cons, decodeFrom_append, decodeFrom_entry,
      DecodeState.push, ih]
    simp

theorem decodeReplies_all (config : RSConfig) (isHelp : Bool) (vars : List RSConfigVar)
    (n : Nat) :
    decodeReplies ([Reply.arrayPostponed] ++
        (vars.map (entryReplies config isHelp)).flatten ++ [Reply.setArrayLength n]) =
      some [ReplyValue.array n (vars.map (entryValue config isHelp))] := by
  unfold decodeReplies
  rw [List.append_assoc, decodeFrom_append]
  simp only [decodeFrom, decodeStep, decodeFrom_append, decodeFrom_entries]
  simp [DecodeState.push]

theorem findConfigVarFrom_nodup (vars : List RSConfigVar) :
    ∀ (k j : Nat) (v : RSConfigVar), (vars.map (fun d => d.name)).Nodup →
      vars[j]? = some v → findConfigVarFrom v.name k vars = some (k + j, v) := by
  induction vars with
  | nil => intro k j v _ h; simp at h
  | cons w ws ih =>
    intro k j v hnd h
    rw [List.map_cons, List.nodup_cons] at hnd
    cases j with
    | zero =>
      simp only [List.getElem?_cons_zero, Option.some.injEq] at h
      subst h
      simp [findConfigVarFrom, strcmpEq]
    | succ j1 =>
      rw [List.getElem?_cons_succ] at h
      have hmem : v.name ∈ ws.map (fun d => d.name) :=
        List.mem_map_of_mem (fun d => d.name) (List.getElem?_mem h)
      have hne : v.name ≠ w.name := fun e => hnd.1 (e ▸ hmem)
      simp only [findConfigVarFrom, strcmpEq, hne, decide_False]
      rw [ih (k + 1) j1 v hnd.2 h]
      simp [Nat.add_assoc, Nat.add_comm 1 j1]

theorem declared_names {E : Externals} {options : List RSConfigVar}
    (hT : DeclaredTable E options) :
    options.map (fun d => d.name) =
      ["EXTLOAD", "SAFEMODE", "NOGC", "MINPREFIX", "MAXDOCTABLESIZE", "MAXEXPANSIONS",
        "TIMEOUT", "INDEX_THREADS", "SEARCH_THREADS", "FRISOINI", "ON_TIMEOUT", "GCSCANSIZE",
        "MIN_PHONETIC_TERM_LEN"] := by
  have h1 : options.map (fun d => d.name) =
      (options.map clearModified).map (fun d => d.name) := by
    rw [List.map_map]; rfl
  rw [h1, hT]
  rfl

theorem declared_find_mem {E : Externals} {options : List RSConfigVar}
    (hT : DeclaredTable E options) {v : RSConfigVar} (hv : v ∈ options) :
    ∃ i, findConfigVar options v.name = some (i, v) := by
  obtain ⟨j, hj⟩ := List.getElem?_of_mem hv
  have hnd : (options.map (fun d => d.name)).Nodup := by
    rw [declared_names hT]; decide
  exact ⟨0 + j, findConfigVarFrom_nodup options 0 j v hnd hj⟩

theorem declared_getter_mem {E : Externals} {options : List RSConfigVar}
    (hT : DeclaredTable E options) {v : RSConfigVar} (hv : v ∈ options) :
    ∃ get, v.getValue = some get ∧ ∀ config : RSConfig,
      (get config = none ↔
        (v.name = "EXTLOAD" ∧ config.extLoad = none) ∨
        (v.name = "FRISOINI" ∧ config.frisoIni = none)) :=
  declared_getter E (clearModified v) (clearModified_mem hT hv)

/-- C6. On a table reached from the declared one and for every
configuration, `RSConfig_DumpProto` with name `*` and without help opens the
outer array, emits for each descriptor in table order the four calls of a
two-element array holding the descriptor name and its serialized value, a
null reply when the value is unset, and sets the outer length to the number
of descriptors, thirteen. Read as nested arrays the reply is one array whose
declared length is the number of its entries, the i-th entry being the pair of
the i-th name and value. -/
theorem RSConfig_DumpProto_all (E : Externals) (options : List RSConfigVar)
    (config : RSConfig) (hT : DeclaredTable E options) :
    options.map (fun d => d.name) =
      ["EXTLOAD", "SAFEMODE", "NOGC", "MINPREFIX", "MAXDOCTABLESIZE", "MAXEXPANSIONS",
        "TIMEOUT", "INDEX_THREADS", "SEARCH_THREADS", "FRISOINI", "ON_TIMEOUT", "GCSCANSIZE",
        "MIN_PHONETIC_TERM_LEN"] ∧
    options.length = 13 ∧
    RSConfig_DumpProto config options "*" [] false =
      some ([Reply.arrayPostponed] ++
        (options.map (fun v =>
          [Reply.arrayPostponed, Reply.simpleString v.name,
            (match v.serialize config with
              | some s => Reply.simpleString s
              | none => Reply.null),
            Reply.setArrayLength 2])).flatten ++
        [Reply.setArrayLength options.length]) ∧
    (RSConfig_DumpProto config options "*" [] false).bind decodeReplies =
      some [ReplyValue.array options.length
        (options.map (fun v =>
          ReplyValue.array 2 [ReplyValue.simple v.name, valueOrNull (v.serialize config)]))] := by
  have hnames := declared_names hT
  have hlen : options.length = 13 := by
    have := congrArg List.length hnames
    simpa using this
  have hget : ∀ v ∈ options, ∃ get, v.getValue = some get := fun v hv =>
    let ⟨get, hg, _⟩ := declared_getter_mem hT hv
    ⟨get, hg⟩
  have hdump : RSConfig_DumpProto config options "*" [] false =
      some ([Reply.arrayPostponed] ++ (options.map (entryReplies config false)).flatten ++
        [Reply.setArrayLength options.length]) := by
    unfold RSConfig_DumpProto
    have hstar : strcmpEq "*" "*" = true := by decide
    simp only [hstar, if_true, List.nil_append]
    rw [dumpAllOptions_eq config false options _ 0 hget]
    simp
  refine ⟨hnames, hlen, hdump, ?_⟩
  rw [hdump]
  exact decodeReplies_all config false options options.length

/-- Instance of C6 on the declared table and the sample configuration. -/
theorem RSConfig_DumpProto_all_witness :
    DeclaredTable sampleHost (RSGlobalConfigOptions sampleHost) ∧
    (RSGlobalConfigOptions sampleHost).length = 13 ∧
    (RSConfig_DumpProto sampleConfig (RSGlobalConfigOptions sampleHost) "*" [] false).bind
        decodeReplies =
      some [ReplyValue.array (RSGlobalConfigOptions sampleHost).length
        ((RSGlobalConfigOptions sampleHost).map (fun v =>
          ReplyValue.array 2
            [ReplyValue.simple v.name, valueOrNull (v.serialize sampleConfig)]))] :=
  ⟨declared_start sampleHost,
    (RSConfig_DumpProto_all sampleHost (RSGlobalConfigOptions sampleHost) sampleConfig
      (declared_start sampleHost)).2.1,
    (RSConfig_DumpProto_all sampleHost (RSGlobalConfigOptions sampleHost) sampleConfig
      (declared_start sampleHost)).2.2.2⟩

/-- C7. On a table reached from the declared one, for every name other than
`*`, with or without help: when a descriptor of the table has that name,
`RSConfig_DumpProto` emits an outer array of declared length 1 whose only entry
is the record of that descriptor, with the name as first element; when no
descriptor has that name it emits an outer array of declared length 0 with no
entry, and nothing else. -/
theorem RSConfig_DumpProto_named (E : Externals) (options : List RSConfigVar)
    (config : RSConfig) (name : String) (isHelp : Bool) (hT : DeclaredTable E options)
    (hname : name ≠ "*") :
    (∀ v ∈ options, v.name = name →
      RSConfig_DumpProto config options name [] isHelp =
        some ([Reply.arrayPostponed] ++ entryReplies config isHelp v ++
          [Reply.setArrayLength 1]) ∧
      (RSConfig_DumpProto config options name [] isHelp).bind decodeReplies =
        some [ReplyValue.array 1 [entryValue config isHelp v]] ∧
      ∃ n rest, entryValue config isHelp v =
        ReplyValue.array n (ReplyValue.simple name :: rest) ∧ n = rest.length + 1) ∧
    ((∀ v ∈ options, v.name ≠ name) →
      RSConfig_DumpProto config options name [] isHelp =
        some [Reply.arrayPostponed, Reply.setArrayLength 0] ∧
      (RSConfig_DumpProto config options name [] isHelp).bind decodeReplies =
        some [ReplyValue.array 0 []]) := by
  have hstar : strcmpEq "*" name = false := by
    simp [strcmpEq]; exact fun e => hname e.symm
  constructor
  · intro v hv hvn
    obtain ⟨i, hi⟩ := declared_find_mem hT hv
    rw [hvn] at hi
    obtain ⟨get, hg, _⟩ := declared_getter_mem hT hv
    have hdump : RSConfig_DumpProto config options name [] isHelp =
        some ([Reply.arrayPostponed] ++ entryReplies config isHelp v ++
          [Reply.setArrayLength 1]) := by
      unfold RSConfig_DumpProto
      simp only [hstar, hi, dumpConfigOption_eq config v _ isHelp get hg]
      simp
    refine ⟨hdump, ?_, ?_⟩
    · rw [hdump]
      have := decodeReplies_all config isHelp [v] 1
      simpa using this
    · rw [← hvn]
      cases isHelp
      · exact ⟨2, _, rfl, rfl⟩
      · exact ⟨5, _, rfl, rfl⟩
  · intro hno
    have hnone : findConfigVar options name = none := findConfigVarFrom_none name options 0 hno
    have hdump : RSConfig_DumpProto config options name [] isHelp =
        some [Reply.arrayPostponed, Reply.setArrayLength 0] := by
      unfold RSConfig_DumpProto
      simp only [hstar, hnone]
      simp
    refine ⟨hdump, ?_⟩
    rw [hdump]
    rfl

/-- Instances of C7 on the declared table: the unknown name `NOSUCHOPTION`
and the name `NOGC`. -/
theorem RSConfig_DumpProto_named_witness :
    DeclaredTable sampleHost (RSGlobalConfigOptions sampleHost) ∧ "NOSUCHOPTION" ≠ "*" ∧
    (∀ v ∈ RSGlobalConfigOptions sampleHost, v.name ≠ "NOSUCHOPTION") ∧
    RSConfig_DumpProto sampleConfig (RSGlobalConfigOptions sampleHost) "NOSUCHOPTION" [] false =
      some [Reply.arrayPostponed, Reply.setArrayLength 0] ∧
    "NOGC" ≠ "*" ∧
    (RSConfigVar.mk "NOGC" "Disable garbage collection (for this process)" (some setNoGc)
      (some getNoGc) RSCONFIGVAR_F_FLAG) ∈ RSGlobalConfigOptions sampleHost ∧
    (RSConfig_DumpProto sampleConfig (RSGlobalConfigOptions sampleHost) "NOGC" [] false).bind
        decodeReplies =
      some [ReplyValue.array 1 [entryValue sampleConfig false
        (RSConfigVar.mk "NOGC" "Disable garbage collection (for this process)" (some setNoGc)
          (some getNoGc) RSCONFIGVAR_F_FLAG)]] :=
  ⟨declared_start sampleHost, by decide, by decide,
    ((RSConfig_DumpProto_named sampleHost (RSGlobalConfigOptions sampleHost) sampleConfig
      "NOSUCHOPTION" false (declared_start sampleHost) (by decide)).2 (by decide)).1,
    by decide, by simp [RSGlobalConfigOptions],
    ((RSConfig_DumpProto_named sampleHost (RSGlobalConfigOptions sampleHost) sampleConfig
      "NOGC" false (declared_start sampleHost) (by decide)).1
        (RSConfigVar.mk "NOGC" "Disable garbage collection (for this process)" (some setNoGc)
          (some getNoGc) RSCONFIGVAR_F_FLAG) (by simp [RSGlobalConfigOptions]) rfl).2.1⟩

/-- C8. For every descriptor of a table reached from the declared one and
every configuration, the getter is present and `dumpConfigOption` emits,
without help, an array of declared length 2 holding the name and the value,
and with help an array of declared length 5 holding the name, `Description`,
the help text, `Value` and the value. The value is the null reply exactly when
the getter returns NULL, which happens only for `EXTLOAD` and `FRISOINI` with
an unset path, and otherwise a reply carrying the string the getter returned. -/
theorem dumpConfigOption_record (E : Externals) (options : List RSConfigVar)
    (config : RSConfig) (v : RSConfigVar) (ctx : List Reply) (hT : DeclaredTable E options)
    (hv : v ∈ options) :
    ∃ get, v.getValue = some get ∧
      dumpConfigOption config v ctx false =
        some (ctx ++ [Reply.arrayPostponed, Reply.simpleString v.name,
          (match get config with
            | some s => Reply.simpleString s
            | none => Reply.null),
          Reply.setArrayLength 2]) ∧
      dumpConfigOption config v ctx true =
        some (ctx ++ [Reply.arrayPostponed, Reply.simpleString v.name,
          Reply.simpleString "Description", Reply.simpleString v.helpText,
          Reply.simpleString "Value",
          (match get config with
            | some s => Reply.stringBuffer s
            | none => Reply.null),
          Reply.setArrayLength 5]) ∧
      (dumpConfigOption config v [] false).bind decodeReplies =
        some [ReplyValue.array 2
          [ReplyValue.simple v.name,
            (match get config with
              | some s => ReplyValue.simple s
              | none => ReplyValue.null)]] ∧
      (dumpConfigOption config v [] true).bind decodeReplies =
        some [ReplyValue.array 5
          [ReplyValue.simple v.name, ReplyValue.simple "Description",
            ReplyValue.simple v.helpText, ReplyValue.simple "Value",
            (match get config with
              | some s => ReplyValue.buffer s
              | none => ReplyValue.null)]] ∧
      (get config = none ↔
        (v.name = "EXTLOAD" ∧ config.extLoad = none) ∨
        (v.name = "FRISOINI" ∧ config.frisoIni = none)) := by
  obtain ⟨get, hg, hnone⟩ := declared_getter_mem hT hv
  refine ⟨get, hg, ?_, ?_, ?_, ?_, hnone config⟩
  · unfold dumpConfigOption
    rw [hg]
    cases hx : get config <;> simp [hx]
  · unfold dumpConfigOption
    rw [hg]
    cases hx : get config <;> simp [hx]
  · unfold dumpConfigOption
    rw [hg]
    cases hx : get config <;> simp [hx] <;> rfl
  · unfold dumpConfigOption
    rw [hg]
    cases hx : get config <;> simp [hx] <;> rfl

/-- Instance of C8 for `EXTLOAD` with the sample configuration, whose path is
unset. -/
theorem dumpConfigOption_record_witness :
    DeclaredTable sampleHost (RSGlobalConfigOptions sampleHost) ∧
    (RSConfigVar.mk "EXTLOAD" "Load extension scoring/expansion module" (some setExtLoad)
      (some getExtLoad) RSCONFIGVAR_F_IMMUTABLE) ∈ RSGlobalConfigOptions sampleHost ∧
    ∃ get, some getExtLoad = some get ∧
      dumpConfigOption sampleConfig
          (RSConfigVar.mk "EXTLOAD" "Load extension scoring/expansion module" (some setExtLoad)
            (some getExtLoad) RSCONFIGVAR_F_IMMUTABLE) [] false =
        some ([] ++ [Reply.arrayPostponed, Reply.simpleString "EXTLOAD",
          (match get sampleConfig with
            | some s => Reply.simpleString s
            | none => Reply.null),
          Reply.setArrayLength 2]) :=
  ⟨declared_start sampleHost, by simp [RSGlobalConfigOptions],
    let ⟨get, hg, h1, _⟩ := dumpConfigOption_record sampleHost (RSGlobalConfigOptions sampleHost)
      sampleConfig
      (RSConfigVar.mk "EXTLOAD" "Load extension scoring/expansion module" (some setExtLoad)
        (some getExtLoad) RSCONFIGVAR_F_IMMUTABLE) [] (declared_start sampleHost)
      (by simp [RSGlobalConfigOptions])
    ⟨get, hg, h1⟩⟩

/-! ## Setters and the position of their tokens -/

theorem getElem?_shift (pre argv : List String) (off : Nat) :
    (pre ++ argv)[pre.length + off]? = argv[off]? := by
  rw [List.getElem?_append_right (Nat.le_add_right _ _)]
  simp

theorem readLongLong_shift (E : Externals) (pre argv : List String) (off : Nat) :
    readLongLong E (pre ++ argv) (pre.length + off) =
      (readLongLong E argv off).map (fun r => (pre.length + r.1, r.2)) := by
  unfold readLongLong
  rw [getElem?_shift]
  simp only [List.length_append, Nat.add_le_add_iff_left, Nat.add_left_cancel_iff]
  by_cases h1 : off ≤ argv.length
  · by_cases h2 : off = argv.length
    · simp [h1, h2]
    · simp only [h1, h2, if_true, if_false]
      cases argv[off]? with
      | none => rfl
      | some tok => simp [Nat.add_assoc]
  · simp [h1]

theorem readLongLongLimit_shift (E : Externals) (pre argv : List String) (off : Nat)
    (minVal maxVal : Int) :
    readLongLongLimit E (pre ++ argv) (pre.length + off) minVal maxVal =
      (readLongLongLimit E argv off minVal maxVal).map (fun r => (pre.length + r.1, r.2)) := by
  unfold readLongLongLimit
  rw [readLongLong_shift]
  cases readLongLong E argv off with
  | none => rfl
  | some r =>
    obtain ⟨o, out⟩ := r
    cases out with
    | none => rfl
    | some v =>
      simp only [Option.map_some']
      split
      · rfl
      · split <;> rfl

theorem numericSetter_shift (E : Externals) (minVal maxVal : Int)
    (store : RSConfig → Int → RSConfig) : SetterShift (numericSetter E minVal maxVal store) := by
  intro c pre argv off
  unfold numericSetter
  rw [readLongLongLimit_shift]
  cases readLongLongLimit E argv off minVal maxVal with
  | none => rfl
  | some r =>
    obtain ⟨o, out⟩ := r
    cases out <;> rfl

theorem flagSetter_shift (store : RSConfig → RSConfig) :
    SetterShift (fun config _ offset => some (REDISMODULE_OK, store config, offset)) := by
  intro c pre argv off
  rfl

theorem pathSetter_shift (store : RSConfig → String → RSConfig) :
    SetterShift (pathSetter store) := by
  intro c pre argv off
  unfold pathSetter
  rw [getElem?_shift]
  simp only [List.length_append, Nat.add_left_cancel_iff]
  by_cases h : off = argv.length
  · simp [h]
  · simp only [h, if_false]
    cases argv[off]? with
    | none => rfl
    | some tok => simp [Nat.add_assoc]

theorem setExtLoad_shift : SetterShift setExtLoad := by
  intro c pre argv off
  unfold setExtLoad
  rw [getElem?_shift]
  simp only [List.length_append, ge_iff_le, Nat.add_le_add_iff_left]
  by_cases h : argv.length ≤ off
  · simp [h]
  · simp only [h, if_false]
    cases argv[off]? with
    | none => rfl
    | some tok => simp [Nat.add_assoc]

theorem setOnTimeout_shift : SetterShift setOnTimeout := by
  intro c pre argv off
  unfold setOnTimeout
  rw [getElem?_shift]
  simp only [List.length_append, Nat.add_left_cancel_iff]
  by_cases h : off = argv.length
  · simp [h]
  · simp only [h, if_false]
    cases argv[off]? with
    | none => rfl
    | some tok =>
      simp only
      split
      · simp [Nat.add_assoc]
      · split <;> simp [Nat.add_assoc]

/-- Every setter of the declared table meets `SetterShift`. -/
theorem declared_setterShift (E : Externals) (d : RSConfigVar)
    (hd : d ∈ RSGlobalConfigOptions E) (set : Setter) (hs : d.setValue = some set) :
    SetterShift set := by
  simp only [RSGlobalConfigOptions, List.mem_cons, List.mem_singleton, List.not_mem_nil,
    or_false] at hd
  rcases hd with h | h | h | h | h | h | h | h | h | h | h | h | h <;>
    (subst h; simp only [Option.some.injEq] at hs; subst hs)
  · exact setExtLoad_shift
  · exact flagSetter_shift _
  · exact flagSetter_shift _
  · exact setMinPrefix_eq E ▸ numericSetter_shift E _ _ _
  · exact setMaxDocTableSize_eq E ▸ numericSetter_shift E _ _ _
  · exact setMaxExpansions_eq E ▸ numericSetter_shift E _ _ _
  · exact setTimeout_eq E ▸ numericSetter_shift E _ _ _
  · exact setIndexThreads_eq E ▸ numericSetter_shift E _ _ _
  · exact setSearchThreads_eq E ▸ numericSetter_shift E _ _ _
  · exact setFrisoINI_eq ▸ pathSetter_shift _
  · exact setOnTimeout_shift
  · exact setGcScanSize_eq E ▸ numericSetter_shift E _ _ _
  · exact setMinPhoneticTermLen_eq E ▸ numericSetter_shift E _ _ _

theorem setterShift_of_found {E : Externals} {vars : List RSConfigVar}
    (hT : DeclaredTable E vars) {name : String} {i : Nat} {v : RSConfigVar} {set : Setter}
    (hf : findConfigVar vars name = some (i, v)) (hs : v.setValue = some set) :
    SetterShift set ∧ SetterSpec set :=
  have hmem := (declared_found hT hf).1
  ⟨declared_setterShift E _ hmem set hs, declared_setterSpec E _ hmem set hs⟩

/-- The load loop on `pre ++ b` from the end of `pre` on runs as the loop on
`b` alone. -/
theorem loop_shift (E : Externals) (pre b : List String) (err : Option String) :
    ∀ (fuel : Nat) (g : Globals) (off : Nat), DeclaredTable E g.vars → off ≤ b.length →
      ReadConfigLoop (pre ++ b) fuel g (pre.length + off) err =
        ReadConfigLoop b fuel g off err := by
  intro fuel
  induction fuel with
  | zero =>
    intro g off _ _
    simp [ReadConfigLoop]
  | succ f ih =>
    intro g off hT hle
    by_cases hlt : off < b.length
    · obtain ⟨tok, ht, hc⟩ := loop_cases E b g off err hT hlt
      have ht2 : (pre ++ b)[pre.length + off]? = some tok := by
        rw [getElem?_shift]; exact ht
      rcases hc with ⟨hnone, hl⟩ | ⟨i, v, set, rc, c1, off1, hfind, hsv, _, hr, ho1, ho2, _, hl⟩
      · rw [hl f, loop_unknown (pre ++ b) f g (pre.length + off) err tok ht2 hnone]
      · have hshift := (setterShift_of_found hT hfind hsv).1 g.config pre b (off + 1)
        rw [hr] at hshift
        simp only [Option.map_some'] at hshift
        rw [hl f, loop_step (pre ++ b) f g (pre.length + off) err tok i v set rc c1
          (pre.length + off1) ht2 hfind hsv (by rw [Nat.add_assoc]; exact hshift)]
        by_cases hrc : rc ≠ REDISMODULE_OK
        · rw [if_pos hrc, if_pos hrc]
        · rw [if_neg hrc, if_neg hrc]
          exact ih { config := c1, vars := markModified g.vars i } off1
            (markModified_declared hT i) ho2
    · have hge : ¬ pre.length + off < (pre ++ b).length := by simp; omega
      rw [loop_done b (f + 1) g off err hlt, loop_done (pre ++ b) (f + 1) g _ err hge]

/-- A load loop that returns keeps its result when given more fuel. -/
theorem loop_fuel_mono (E : Externals) (argv : List String) (err : Option String) :
    ∀ (fuel fuel2 : Nat) (g : Globals) (off : Nat) (rc : Int) (e : Option String)
      (g1 : Globals), DeclaredTable E g.vars → fuel ≤ fuel2 →
      ReadConfigLoop argv fuel g off err = LoadResult.returned rc e g1 →
      ReadConfigLoop argv fuel2 g off err = LoadResult.returned rc e g1 := by
  intro fuel
  induction fuel with
  | zero =>
    intro fuel2 g off rc e g1 _ _ h
    by_cases hlt : off < argv.length
    · simp [ReadConfigLoop, hlt] at h
    · rw [loop_done argv 0 g off err hlt] at h
      rw [loop_done argv fuel2 g off err hlt]
      exact h
  | succ f ih =>
    intro fuel2 g off rc e g1 hT hle h
    by_cases hlt : off < argv.length
    · obtain ⟨f2, rfl⟩ : ∃ f2, fuel2 = f2 + 1 := ⟨fuel2 - 1, by omega⟩
      obtain ⟨tok, _, hc⟩ := loop_cases E argv g off err hT hlt
      rcases hc with ⟨_, hl⟩ | ⟨i, v, set, rc1, c1, off1, _, _, _, _, _, _, _, hl⟩
      · rw [hl f] at h
        rw [hl f2]
        exact h
      · rw [hl f] at h
        rw [hl f2]
        by_cases hrc : rc1 ≠ REDISMODULE_OK
        · rw [if_pos hrc] at h ⊢
          exact h
        · rw [if_neg hrc] at h ⊢
          exact ih f2 _ off1 rc e g1 (markModified_declared hT i) (by omega) h
    · rw [loop_done argv (f + 1) g off err hlt] at h
      rw [loop_done argv fuel2 g off err hlt]
      exact h

/-- After a failing first iteration the globals are the ones before it. -/
theorem loop_first_fails (E : Externals) (b : List String) (g g2 : Globals)
    (err e2 : Option String) (hT : DeclaredTable E g.vars)
    (h : ReadConfigLoop b 1 g 0 err = LoadResult.returned REDISMODULE_ERR e2 g2) : g2 = g := by
  by_cases hlt : 0 < b.length
  · obtain ⟨tok, _, hc⟩ := loop_cases E b g 0 err hT hlt
    rcases hc with ⟨_, hl⟩ | ⟨i, v, set, rc, c1, off1, _, _, _, _, _, _, hrc, hl⟩
    · rw [hl 0] at h
      simp only [LoadResult.returned.injEq] at h
      exact h.2.2.symm
    · rw [hl 0] at h
      rcases hrc with hok | ⟨herr, hc1⟩
      · subst hok
        rw [if_neg (by simp)] at h
        by_cases h1 : off1 < b.length
        · simp [ReadConfigLoop, h1] at h
        · rw [loop_done b 0 _ off1 err h1] at h
          simp [REDISMODULE_OK, REDISMODULE_ERR] at h
      · subst herr
        subst hc1
        rw [if_pos (by decide)] at h
        simp only [LoadResult.returned.injEq] at h
        exact h.2.2.symm
  · rw [loop_done b 1 g 0 err hlt] at h
    simp [REDISMODULE_OK, REDISMODULE_ERR] at h

/-! ## Composition of loads -/

/-- C13. Without the environment signal and from a table reached from the
declared one: when `ReadConfig` succeeds on `a` and leaves the globals `s1`,
configuration and flags, then `ReadConfig` on `a ++ b` returns exactly what
`ReadConfig` on `b` returns from `s1`: the same code, message, configuration
and flags. In particular, when the load of `b` fails in its first iteration,
the load of `a ++ b` fails with the same message and leaves exactly `s1`:
what `a` applied and marked MODIFIED stays. -/
theorem ReadConfig_no_rollback (E : Externals) (s s1 : Globals) (a b : List String)
    (e : Option String) (hT : DeclaredTable E s.vars)
    (ha : ReadConfig false s a = LoadResult.returned REDISMODULE_OK e s1) :
    ReadConfig false s (a ++ b) = ReadConfig false s1 b ∧
    ∀ (e2 : Option String) (g2 : Globals),
      ReadConfigLoop b 1 s1 0 none = LoadResult.returned REDISMODULE_ERR e2 g2 →
      ReadConfig false s (a ++ b) = LoadResult.returned REDISMODULE_ERR e2 s1 := by
  obtain ⟨_, hT1, happ⟩ := ReadConfig_append E false s s1 a b e hT ha
  have hshift := loop_shift E a b none b.length s1 0 hT1 (Nat.zero_le _)
  have hmain : ReadConfig false s (a ++ b) = ReadConfig false s1 b := by
    rw [happ]
    exact hshift
  refine ⟨hmain, fun e2 g2 h1 => ?_⟩
  have hg := loop_first_fails E b s1 g2 none e2 hT1 h1
  subst hg
  rw [hmain]
  have hlen : 1 ≤ b.length := by
    by_contra hx
    have hx2 : ¬ 0 < b.length := by omega
    rw [loop_done b 1 g2 0 none hx2] at h1
    simp [REDISMODULE_OK, REDISMODULE_ERR] at h1
  unfold ReadConfig
  exact loop_fuel_mono E b none 1 b.length _ 0 _ e2 g2 hT1 hlen h1

/-- Instance of C13 from the sample globals: `NOGC` loads, then the unknown
token `BOGUS` fails the load and `NOGC` stays applied and marked. -/
theorem ReadConfig_no_rollback_witness :
    DeclaredTable sampleHost sampleGlobals.vars ∧
    ReadConfig false sampleGlobals ["NOGC"] =
      LoadResult.returned REDISMODULE_OK none
        { config := { sampleConfig with enableGC := 0 },
          vars := markModified (RSGlobalConfigOptions sampleHost) 2 } ∧
    ReadConfig false sampleGlobals (["NOGC"] ++ ["BOGUS"]) =
      LoadResult.returned REDISMODULE_ERR (some "No such configuration option `BOGUS`")
        { config := { sampleConfig with enableGC := 0 },
          vars := markModified (RSGlobalConfigOptions sampleHost) 2 } :=
  ⟨declared_start sampleHost, rfl,
    (ReadConfig_no_rollback sampleHost sampleGlobals _ ["NOGC"] ["BOGUS"] none
      (declared_start sampleHost) rfl).2 _ _ rfl⟩

/-! ## Tokens consumed by a setter -/

theorem numericSetter_cursor (E : Externals) (minVal maxVal : Int)
    (store : RSConfig → Int → RSConfig) (c c1 : RSConfig) (argv : List String) (k k1 : Nat)
    (h : numericSetter E minVal maxVal store c argv k = some (REDISMODULE_OK, c1, k1)) :
    k1 = k + 1 := by
  by_cases hlt : k < argv.length
  · obtain ⟨tok, ht⟩ := getElem?_of_lt argv k hlt
    obtain ⟨r, hr⟩ := readLongLongLimit_shape E argv k minVal maxVal tok ht
    unfold numericSetter at h
    rw [hr] at h
    cases r with
    | none => simp [REDISMODULE_OK, REDISMODULE_ERR] at h
    | some v =>
      simp only [Option.some.injEq, Prod.mk.injEq, true_and] at h
      exact h.2.symm
  · unfold numericSetter readLongLongLimit readLongLong at h
    by_cases hle : k ≤ argv.length
    · have he : k = argv.length := by omega
      simp [he, REDISMODULE_OK, REDISMODULE_ERR] at h
    · simp [hle] at h

theorem pathSetter_cursor (store : RSConfig → String → RSConfig) (c c1 : RSConfig)
    (argv : List String) (k k1 : Nat)
    (h : pathSetter store c argv k = some (REDISMODULE_OK, c1, k1)) : k1 = k + 1 := by
  unfold pathSetter at h
  by_cases he : k = argv.length
  · simp [he, REDISMODULE_OK, REDISMODULE_ERR] at h
  · simp only [he, if_false] at h
    cases hx : argv[k]? with
    | none => rw [hx] at h; cases h
    | some tok =>
      rw [hx] at h
      simp only [Option.some.injEq, Prod.mk.injEq, true_and] at h
      exact h.2.symm

theorem setExtLoad_cursor (c c1 : RSConfig) (argv : List String) (k k1 : Nat)
    (h : setExtLoad c argv k = some (REDISMODULE_OK, c1, k1)) : k1 = k + 1 := by
  unfold setExtLoad at h
  by_cases he : k ≥ argv.length
  · simp [he, REDISMODULE_OK, REDISMODULE_ERR] at h
  · simp only [he, if_false] at h
    cases hx : argv[k]? with
    | none => rw [hx] at h; cases h
    | some tok =>
      rw [hx] at h
      simp only [Option.some.injEq, Prod.mk.injEq, true_and] at h
      exact h.2.symm

theorem setOnTimeout_cursor (c c1 : RSConfig) (argv : List String) (k k1 : Nat)
    (h : setOnTimeout c argv k = some (REDISMODULE_OK, c1, k1)) : k1 = k + 1 := by
  by_cases hlt : k < argv.length
  · obtain ⟨tok, ht⟩ := getElem?_of_lt argv k hlt
    rw [setOnTimeout_at c argv k tok ht] at h
    split at h
    · simp only [Option.some.injEq, Prod.mk.injEq, true_and] at h
      exact h.2.symm
    · split at h
      · simp only [Option.some.injEq, Prod.mk.injEq, true_and] at h
        exact h.2.symm
      · simp [REDISMODULE_OK, REDISMODULE_ERR] at h
  · unfold setOnTimeout at h
    by_cases he : k = argv.length
    · simp [he, REDISMODULE_OK, REDISMODULE_ERR] at h
    · have hx : argv[k]? = none := List.getElem?_eq_none (by omega)
      simp [he, hx] at h

/-- Where a successful setter of the declared table leaves the cursor. -/
theorem declared_cursor (E : Externals) (d : RSConfigVar) (set : Setter) (c c1 : RSConfig)
    (argv : List String) (k k1 : Nat) (hd : d ∈ RSGlobalConfigOptions E)
    (hs : d.setValue = some set) (h : set c argv k = some (REDISMODULE_OK, c1, k1)) :
    k1 = if d.flags.test RSCONFIGVAR_F_FLAG then k else k + 1 := by
  simp only [RSGlobalConfigOptions, List.mem_cons, List.mem_singleton, List.not_mem_nil,
    or_false] at hd
  rcases hd with hh | hh | hh | hh | hh | hh | hh | hh | hh | hh | hh | hh | hh <;>
    (subst hh; simp only [Option.some.injEq] at hs; subst hs)
  · rw [if_neg (by dsimp only; decide)]; exact setExtLoad_cursor c c1 argv k k1 h
  · rw [if_pos (by dsimp only; decide)]
    simp only [setSafemode, Option.some.injEq, Prod.mk.injEq, true_and] at h
    exact h.2.symm
  · rw [if_pos (by dsimp only; decide)]
    simp only [setNoGc, Option.some.injEq, Prod.mk.injEq, true_and] at h
    exact h.2.symm
  · rw [if_neg (by dsimp only; decide)]
    rw [setMinPrefix_eq] at h; exact numericSetter_cursor _ _ _ _ _ _ _ _ _ h
  · rw [if_neg (by dsimp only; decide)]
    rw [setMaxDocTableSize_eq] at h; exact numericSetter_cursor _ _ _ _ _ _ _ _ _ h
  · rw [if_neg (by dsimp only; decide)]
    rw [setMaxExpansions_eq] at h; exact numericSetter_cursor _ _ _ _ _ _ _ _ _ h
  · rw [if_neg (by dsimp only; decide)]
    rw [setTimeout_eq] at h; exact numericSetter_cursor _ _ _ _ _ _ _ _ _ h
  · rw [if_neg (by dsimp only; decide)]
    rw [setIndexThreads_eq] at h; exact numericSetter_cursor _ _ _ _ _ _ _ _ _ h
  · rw [if_neg (by dsimp only; decide)]
    rw [setSearchThreads_eq] at h; exact numericSetter_cursor _ _ _ _ _ _ _ _ _ h
  · rw [if_neg (by dsimp only; decide)]
    rw [setFrisoINI_eq] at h; exact pathSetter_cursor _ _ _ _ _ _ h
  · rw [if_neg (by dsimp only; decide)]; exact setOnTimeout_cursor c c1 argv k k1 h
  · rw [if_neg (by dsimp only; decide)]
    rw [setGcScanSize_eq] at h; exact numericSetter_cursor _ _ _ _ _ _ _ _ _ h
  · rw [if_neg (by dsimp only; decide)]
    rw [setMinPhoneticTermLen_eq] at h; exact numericSetter_cursor _ _ _ _ _ _ _ _ _ h

/-- C17. The descriptors with the boolean-flag bit are `SAFEMODE` and `NOGC`.
For every descriptor of the declared table and every call of its parser that
returns `REDISMODULE_OK` from a cursor `k` (at most the token count), the
cursor afterwards is `k` when the descriptor carries the boolean-flag bit and
`k + 1` otherwise. Hence every iteration of the `ReadConfig` loop that goes on
has consumed the name token and no or one value token. -/
theorem setter_cursor_advance (E : Externals) :
    ((RSGlobalConfigOptions E).filter (fun d => d.flags.test RSCONFIGVAR_F_FLAG)).map
        (fun d => d.name) = ["SAFEMODE", "NOGC"] ∧
    (∀ (d : RSConfigVar) (set : Setter) (c c1 : RSConfig) (argv : List String) (k k1 : Nat),
      d ∈ RSGlobalConfigOptions E → d.setValue = some set → k ≤ argv.length →
      set c argv k = some (REDISMODULE_OK, c1, k1) →
      k1 = if d.flags.test RSCONFIGVAR_F_FLAG then k else k + 1) ∧
    (∀ (argv : List String) (fuel : Nat) (g : Globals) (off : Nat) (err : Option String),
      DeclaredTable E g.vars → off < argv.length →
      (∃ e, ReadConfigLoop argv (fuel + 1) g off err =
          LoadResult.returned REDISMODULE_ERR e g) ∨
      ∃ g1 off1, (off1 = off + 1 ∨ off1 = off + 2) ∧ off1 ≤ argv.length ∧
        ReadConfigLoop argv (fuel + 1) g off err = ReadConfigLoop argv fuel g1 off1 err) := by
  refine ⟨rfl, fun d set c c1 argv k k1 hd hs _ h => declared_cursor E d set c c1 argv k k1 hd hs h,
    ?_⟩
  intro argv fuel g off err hT hlt
  obtain ⟨tok, _, hc⟩ := loop_cases E argv g off err hT hlt
  rcases hc with ⟨_, hl⟩ | ⟨i, v, set, rc, c1, off1, hfind, hsv, _, hr, _, ho2, hrc, hl⟩
  · exact Or.inl ⟨_, hl fuel⟩
  · rcases hrc with hok | ⟨herr, hc1⟩
    · right
      subst hok
      have hmem := (declared_found hT hfind).1
      have h1 := declared_cursor E (clearModified v) set g.config c1 argv (off + 1) off1 hmem hsv
        hr
      refine ⟨{ config := c1, vars := markModified g.vars i }, off1, ?_, ho2, ?_⟩
      · split at h1
        · exact Or.inl h1
        · exact Or.inr h1
      · rw [hl fuel, if_neg (by simp)]
    · left
      subst herr
      subst hc1
      exact ⟨_, by rw [hl fuel, if_pos (by decide)]⟩

/-- Instance of C17 for `MINPREFIX` on the single token `3` at cursor 0. -/
theorem setter_cursor_advance_witness :
    (RSConfigVar.mk "MINPREFIX" "Set the minimum prefix for expansions (`*`)"
      (some (setMinPrefix sampleHost)) (some getMinPrefix) noFlags) ∈
        RSGlobalConfigOptions sampleHost ∧
    (0 : Nat) ≤ ["3"].length ∧
    setMinPrefix sampleHost sampleConfig ["3"] 0 =
      some (REDISMODULE_OK, { sampleConfig with minTermPrefix := 3 }, 1) ∧
    (1 : Nat) = if noFlags.test RSCONFIGVAR_F_FLAG then 0 else 0 + 1 :=
  ⟨by simp [RSGlobalConfigOptions], by decide, by decide,
    (setter_cursor_advance sampleHost).2.1
      (RSConfigVar.mk "MINPREFIX" "Set the minimum prefix for expansions (`*`)"
        (some (setMinPrefix sampleHost)) (some getMinPrefix) noFlags)
      (setMinPrefix sampleHost) sampleConfig { sampleConfig with minTermPrefix := 3 } ["3"] 0 1
      (by simp [RSGlobalConfigOptions]) rfl (by decide) (by decide)⟩

/-! ## Runtime set against bulk load -/

/-! ## Runtime set against bulk load -/

/-- C12. The descriptors not flagged IMMUTABLE are `NOGC`, `MINPREFIX`,
`MAXEXPANSIONS`, `TIMEOUT`, `ON_TIMEOUT`, `GCSCANSIZE` and
`MIN_PHONETIC_TERM_LEN`. For each of them, every configuration `c`, every
table reached from the declared one and every token list `ts` with no token
for a boolean flag and at most one otherwise, `RSConfig_SetOption` with that
name on `ts` at cursor 0 and `ReadConfig` without the environment signal on
the name followed by `ts`, both from `c`, return the same code, which is
`REDISMODULE_OK` or `REDISMODULE_ERR`, and leave the same configuration. -/
theorem RSConfig_SetOption_agrees_with_ReadConfig (E : Externals) :
    ((RSGlobalConfigOptions E).filter
        (fun d => !d.flags.test RSCONFIGVAR_F_IMMUTABLE)).map (fun d => d.name) =
      ["NOGC", "MINPREFIX", "MAXEXPANSIONS", "TIMEOUT", "ON_TIMEOUT", "GCSCANSIZE",
        "MIN_PHONETIC_TERM_LEN"] ∧
    ∀ (vars : List RSConfigVar) (c : RSConfig) (d : RSConfigVar) (ts : List String)
      (err : Option String), DeclaredTable E vars → d ∈ RSGlobalConfigOptions E →
      d.flags.test RSCONFIGVAR_F_IMMUTABLE = false →
      ts.length ≤ (if d.flags.test RSCONFIGVAR_F_FLAG then 0 else 1) →
      ∃ rc c1 off1 e g1,
        RSConfig_SetOption c vars d.name ts 0 err = some (rc, c1, off1, err) ∧
        ReadConfig false { config := c, vars := vars } (d.name :: ts) =
          LoadResult.returned rc e g1 ∧
        g1.config = c1 ∧ (rc = REDISMODULE_OK ∨ rc = REDISMODULE_ERR) := by
  refine ⟨rfl, ?_⟩
  intro vars c d ts err hT hd himm hlen
  obtain ⟨i, hi⟩ := declared_find_self E d hd
  obtain ⟨v, hv, hc⟩ := find_declared_some hT hi
  obtain ⟨set, hset⟩ := declared_hasSetter E d hd
  have hsv : v.setValue = some set := by rw [setValue_of_clear hc, hset]
  have hspec := declared_setterSpec E d hd set hset
  have hshift := declared_setterShift E d hd set hset
  have hfl : v.flags.test RSCONFIGVAR_F_IMMUTABLE = false := by
    rw [← hc] at himm
    simpa [clearModified, VarFlags.test, RSCONFIGVAR_F_IMMUTABLE] using himm
  obtain ⟨rc, c1, off1, hr, _, ho2, hrc⟩ := hspec.total c ts 0 (Nat.zero_le _)
  have hso : RSConfig_SetOption c vars d.name ts 0 err = some (rc, c1, off1, err) := by
    unfold RSConfig_SetOption
    rw [hv]
    simp only [hfl, hsv, hr]
    simp
  have hr2 : set c (d.name :: ts) (0 + 1) = some (rc, c1, 1 + off1) := by
    have := hshift c [d.name] ts 0
    rw [hr] at this
    simpa [Nat.add_comm] using this
  have hcs := declared_name_cstr E d hd
  have hv1 : findConfigVar vars (RedisModule_StringPtrLen d.name) = some (i, v) := by
    rw [hcs]; exact hv
  have hstep := loop_step (d.name :: ts) ts.length { config := c, vars := vars } 0 none d.name
    i v set rc c1 (1 + off1) (by simp) hv1 hsv hr2
  have hrc2 : rc = REDISMODULE_OK ∨ rc = REDISMODULE_ERR := hrc.elim Or.inl (fun h => Or.inr h.1)
  rcases hrc with hok | ⟨herr, _⟩
  · subst hok
    have hk := declared_cursor E d set c c1 ts 0 off1 hd hset hr
    have hoff : off1 = ts.length := by
      split at hk
      · rw [if_pos (by assumption)] at hlen; omega
      · rw [if_neg (by assumption)] at hlen; omega
    refine ⟨REDISMODULE_OK, c1, off1, none,
      { config := c1, vars := markModified vars i }, hso, ?_, rfl, hrc2⟩
    show ReadConfigLoop (d.name :: ts) (ts.length + 1) { config := c, vars := vars } 0 none = _
    rw [hstep, if_neg (by simp)]
    exact loop_done _ _ _ _ _ (by simp [hoff]; omega)
  · subst herr
    refine ⟨REDISMODULE_ERR, c1, off1, some (RedisModule_StringPtrLen d.name ++ ": Bad value"),
      { config := c1, vars := vars }, hso, ?_, rfl, hrc2⟩
    show ReadConfigLoop (d.name :: ts) (ts.length + 1) { config := c, vars := vars } 0 none = _
    rw [hstep, if_pos (by decide)]

/-- Instance of C12 for `MINPREFIX` with the rejected value `0`, from the
sample configuration and the declared table. -/
theorem RSConfig_SetOption_agrees_with_ReadConfig_witness :
    DeclaredTable sampleHost (RSGlobalConfigOptions sampleHost) ∧
    (RSConfigVar.mk "MINPREFIX" "Set the minimum prefix for expansions (`*`)"
      (some (setMinPrefix sampleHost)) (some getMinPrefix) noFlags) ∈
        RSGlobalConfigOptions sampleHost ∧
    noFlags.test RSCONFIGVAR_F_IMMUTABLE = false ∧
    ["0"].length ≤ (if noFlags.test RSCONFIGVAR_F_FLAG then 0 else 1) ∧
    ∃ rc c1 off1 e g1,
      RSConfig_SetOption sampleConfig (RSGlobalConfigOptions sampleHost) "MINPREFIX" ["0"] 0
          none = some (rc, c1, off1, none) ∧
      ReadConfig false { config := sampleConfig, vars := RSGlobalConfigOptions sampleHost }
          ("MINPREFIX" :: ["0"]) = LoadResult.returned rc e g1 ∧
      g1.config = c1 ∧ (rc = REDISMODULE_OK ∨ rc = REDISMODULE_ERR) :=
  ⟨declared_start sampleHost, by simp [RSGlobalConfigOptions], rfl, by decide,
    (RSConfig_SetOption_agrees_with_ReadConfig sampleHost).2 (RSGlobalConfigOptions sampleHost)
      sampleConfig
      (RSConfigVar.mk "MINPREFIX" "Set the minimum prefix for expansions (`*`)"
        (some (setMinPrefix sampleHost)) (some getMinPrefix) noFlags)
      ["0"] none (declared_start sampleHost) (by simp [RSGlobalConfigOptions]) rfl
      (by decide)⟩

/-! ## Error values -/

theorem setMinPrefix_rejects (E : Externals) (c : RSConfig) (argv : List String) (k : Nat)
    (tok : String) (ht : argv[k]? = some tok)
    (hbad : RedisModule_StringToLongLong E tok = none ∨
      ∃ n, RedisModule_StringToLongLong E tok = some n ∧ n < 1) :
    setMinPrefix E c argv k = some (REDISMODULE_ERR, c, k + 1) := by
  have hr := readLongLongLimit_lt E argv k 1 LLONG_MAX tok ht
  rcases hbad with hnone | ⟨n, hn, hlt⟩
  · rw [hnone] at hr
    simp [setMinPrefix, hr]
  · rw [hn] at hr
    simp [hlt, LLONG_MIN] at hr
    simp [setMinPrefix, hr]

/-- C14, amended. A rejected input produces an explicit error value, but the
kinds of rejection by a parser are not told apart: on a table reached from
the declared one, `ReadConfig` on `MINPREFIX` with no value, and on
`MINPREFIX` with a value token that does not convert or converts to a number
below 1, return the same result, `REDISMODULE_ERR` with the message
`MINPREFIX: Bad value` and the globals as the environment block left them.
That message differs from every unknown-option message. -/
theorem ReadConfig_bad_value_uniform (E : Externals) (rsMinThreads : Bool) (g : Globals)
    (tok : String) (hT : DeclaredTable E g.vars)
    (hbad : RedisModule_StringToLongLong E tok = none ∨
      ∃ n, RedisModule_StringToLongLong E tok = some n ∧ n < 1) :
    ReadConfig rsMinThreads g ["MINPREFIX"] =
      LoadResult.returned REDISMODULE_ERR (some "MINPREFIX: Bad value")
        { config := minThreadsOverride rsMinThreads g.config, vars := g.vars } ∧
    ReadConfig rsMinThreads g ["MINPREFIX", tok] = ReadConfig rsMinThreads g ["MINPREFIX"] ∧
    ∀ name : String,
      "No such configuration option `" ++ name ++ "`" ≠ "MINPREFIX: Bad value" := by
  have hfind : findConfigVar (RSGlobalConfigOptions E) "MINPREFIX" = some (3, _) := rfl
  obtain ⟨v, hv, hc⟩ := find_declared_some hT hfind
  have hs := setValue_of_clear hc
  have h1 : ReadConfig rsMinThreads g ["MINPREFIX"] =
      LoadResult.returned REDISMODULE_ERR (some "MINPREFIX: Bad value")
        { config := minThreadsOverride rsMinThreads g.config, vars := g.vars } := by
    have hset : setMinPrefix E (minThreadsOverride rsMinThreads g.config) ["MINPREFIX"] (0 + 1)
        = some (REDISMODULE_ERR, minThreadsOverride rsMinThreads g.config, 1) := by
      have := readLongLongLimit_end E ["MINPREFIX"] 1 LLONG_MAX
      simp only [List.length_singleton] at this
      simp [setMinPrefix, this]
    unfold ReadConfig
    simp only [List.length_cons, List.length_nil]
    rw [loop_step _ _ { config := minThreadsOverride rsMinThreads g.config, vars := g.vars }
      _ _ "MINPREFIX" 3 v _ _ _ _ rfl hv hs hset, if_pos (by decide)]
    rfl
  have h2 : ReadConfig rsMinThreads g ["MINPREFIX", tok] =
      LoadResult.returned REDISMODULE_ERR (some "MINPREFIX: Bad value")
        { config := minThreadsOverride rsMinThreads g.config, vars := g.vars } := by
    have hset := setMinPrefix_rejects E (minThreadsOverride rsMinThreads g.config)
      ["MINPREFIX", tok] (0 + 1) tok rfl hbad
    unfold ReadConfig
    simp only [List.length_cons, List.length_nil]
    rw [loop_step _ _ { config := minThreadsOverride rsMinThreads g.config, vars := g.vars }
      _ _ "MINPREFIX" 3 v _ _ _ _ rfl hv hs hset, if_pos (by decide)]
    rfl
  refine ⟨h1, by rw [h1, h2], fun name h => ?_⟩
  have hd := congrArg String.data h
  simp only [String.data_append] at hd
  have hh := congrArg List.head? hd
  simp at hh

/-- Instance of C14 with the token `abc`, which the sample host does not
convert, from the sample globals. -/
theorem ReadConfig_bad_value_uniform_witness :
    DeclaredTable sampleHost sampleGlobals.vars ∧
    (RedisModule_StringToLongLong sampleHost "abc" = none ∨
      ∃ n, RedisModule_StringToLongLong sampleHost "abc" = some n ∧ n < 1) ∧
    ReadConfig false sampleGlobals ["MINPREFIX", "abc"] =
      ReadConfig false sampleGlobals ["MINPREFIX"] :=
  ⟨declared_start sampleHost, Or.inl (by decide),
    (ReadConfig_bad_value_uniform sampleHost false sampleGlobals "abc"
      (declared_start sampleHost) (Or.inl (by decide))).2.1⟩

/-- C14 as stated fails: from the sample globals the error `ReadConfig`
reports for the missing argument is the same value as the one for the
out-of-range value `0` and the one for the unparsable value `abc`. -/
theorem ReadConfig_errors_coincide :
    RedisModule_StringToLongLong sampleHost "0" = some 0 ∧
    RedisModule_StringToLongLong sampleHost "abc" = none ∧
    (ReadConfig false sampleGlobals ["MINPREFIX"]).observe =
      some (REDISMODULE_ERR, some "MINPREFIX: Bad value", sampleConfig,
        (RSGlobalConfigOptions sampleHost).map (fun d => d.flags)) ∧
    (ReadConfig false sampleGlobals ["MINPREFIX", "0"]).observe =
      (ReadConfig false sampleGlobals ["MINPREFIX"]).observe ∧
    (ReadConfig false sampleGlobals ["MINPREFIX", "abc"]).observe =
      (ReadConfig false sampleGlobals ["MINPREFIX"]).observe :=
  ⟨by decide, by decide, by decide, by decide, by decide⟩

/-- C15 fails on the code. `RSConfig_SetOption` on the declared table returns
`REDISMODULE_ERR` and leaves `*err` NULL when the parser rejects the value:
for `MINPREFIX` with the out-of-range value `0`, for `MINPREFIX` with no
argument and for `ON_TIMEOUT` with the value `bogus`. -/
theorem RSConfig_SetOption_no_message :
    RSConfig_SetOption sampleConfig (RSGlobalConfigOptions sampleHost) "MINPREFIX" ["0"] 0
        none = some (REDISMODULE_ERR, sampleConfig, 1, none) ∧
    RSConfig_SetOption sampleConfig (RSGlobalConfigOptions sampleHost) "MINPREFIX" [] 0
        none = some (REDISMODULE_ERR, sampleConfig, 0, none) ∧
    RSConfig_SetOption sampleConfig (RSGlobalConfigOptions sampleHost) "ON_TIMEOUT" ["bogus"] 0
        none = some (REDISMODULE_ERR, sampleConfig, 1, none) ∧
    RSConfig_SetOption sampleConfig (RSGlobalConfigOptions sampleHost) "NOSUCHOPTION" ["0"] 0
        none = some (REDISMODULE_ERR, sampleConfig, 0, SET_ERR none "No such option") ∧
    RSConfig_SetOption sampleConfig (RSGlobalConfigOptions sampleHost) "EXTLOAD" ["x"] 0
        none =
      some (REDISMODULE_ERR, sampleConfig, 0, SET_ERR none "Option not settable at runtime") :=
  ⟨by decide, by decide, by decide, by decide, by decide⟩

/-! ## Lookup by name -/

/-- C16. The names of the declared table are pairwise distinct, and on every
table reached from it `findConfigVar` is an exact lookup: for every string
`n` a descriptor of the table named `n` is the one returned, together with
its position; whatever is returned is a descriptor of the table named `n`; and
NULL is returned exactly when no descriptor is named `n`. Letter case counts:
`minprefix` is not found, `MINPREFIX` is. -/
theorem findConfigVar_exact (E : Externals) (vars : List RSConfigVar)
    (hT : DeclaredTable E vars) :
    ((RSGlobalConfigOptions E).map (fun d => d.name)).Nodup ∧
    (vars.map (fun d => d.name)).Nodup ∧
    (∀ (n : String) (v : RSConfigVar), v ∈ vars → v.name = n →
      ∃ i, findConfigVar vars n = some (i, v) ∧ vars[i]? = some v) ∧
    (∀ (n : String) (i : Nat) (v : RSConfigVar), findConfigVar vars n = some (i, v) →
      v ∈ vars ∧ v.name = n ∧ vars[i]? = some v ∧ ∀ w ∈ vars, w.name = n → w = v) ∧
    (∀ n : String, findConfigVar vars n = none ↔ ∀ v ∈ vars, v.name ≠ n) ∧
    findConfigVar vars "minprefix" = none ∧
    ∃ v, findConfigVar vars "MINPREFIX" = some (3, v) ∧ v.name = "MINPREFIX" := by
  have hnd0 : ((RSGlobalConfigOptions E).map (fun d => d.name)).Nodup := by
    rw [declared_names (declared_start E)]; decide
  have hnd : (vars.map (fun d => d.name)).Nodup := by
    rw [declared_names hT]; decide
  have hfound : ∀ (n : String) (v : RSConfigVar), v ∈ vars → v.name = n →
      ∃ i, findConfigVar vars n = some (i, v) ∧ vars[i]? = some v := by
    intro n v hv hn
    obtain ⟨j, hj⟩ := List.getElem?_of_mem hv
    refine ⟨0 + j, ?_, by simpa using hj⟩
    rw [← hn]
    exact findConfigVarFrom_nodup vars 0 j v hnd hj
  refine ⟨hnd0, hnd, hfound, ?_, ?_, ?_, ?_⟩
  · intro n i v h
    obtain ⟨hmem, hname⟩ := findConfigVarFrom_mem n vars 0 i v h
    obtain ⟨_, hget⟩ := findConfigVarFrom_getElem n vars 0 i v h
    refine ⟨hmem, hname, by simpa using hget, fun w hw hwn => ?_⟩
    obtain ⟨k, hk, _⟩ := hfound n w hw hwn
    rw [h] at hk
    simp only [Option.some.injEq, Prod.mk.injEq] at hk
    exact hk.2.symm
  · intro n
    constructor
    · intro h v hv hn
      obtain ⟨i, hi, _⟩ := hfound n v hv hn
      rw [h] at hi
      cases hi
    · intro h
      exact findConfigVarFrom_none n vars 0 h
  · apply findConfigVarFrom_none
    intro v hv
    have hmem : v.name ∈ vars.map (fun d => d.name) := List.mem_map_of_mem (fun d => d.name) hv
    rw [declared_names hT] at hmem
    intro hn
    rw [hn] at hmem
    revert hmem
    decide
  · obtain ⟨v, hv, hc⟩ := find_declared_some hT
      (show findConfigVar (RSGlobalConfigOptions E) "MINPREFIX" = some (3, _) from rfl)
    exact ⟨v, hv, (findConfigVarFrom_mem "MINPREFIX" vars 0 3 v hv).2⟩

/-- Instance of C16 on the declared table of the sample host. -/
theorem findConfigVar_exact_witness :
    DeclaredTable sampleHost (RSGlobalConfigOptions sampleHost) ∧
    ((RSGlobalConfigOptions sampleHost).map (fun d => d.name)).Nodup ∧
    findConfigVar (RSGlobalConfigOptions sampleHost) "minprefix" = none :=
  ⟨declared_start sampleHost,
    (findConfigVar_exact sampleHost (RSGlobalConfigOptions sampleHost)
      (declared_start sampleHost)).1,
    (findConfigVar_exact sampleHost (RSGlobalConfigOptions sampleHost)
      (declared_start sampleHost)).2.2.2.2.2.1⟩

/-! ## Range of the integer options -/

/-- When `readLongLongLimit` returns `REDISMODULE_OK` at a cursor with a
token. -/
theorem readLongLongLimit_ok_iff (E : Externals) (argv : List String) (k : Nat) (tok : String)
    (ht : argv[k]? = some tok) (minVal maxVal : Int) (v : Int) :
    readLongLongLimit E argv k minVal maxVal = some (k + 1, some v) ↔
      RedisModule_StringToLongLong E tok = some v ∧ minVal ≤ v ∧ v ≤ maxVal := by
  rw [readLongLongLimit_lt E argv k minVal maxVal tok ht]
  cases hp : RedisModule_StringToLongLong E tok with
  | none => simp
  | some out =>
    have hrange := stringToLongLong_range hp
    dsimp only
    by_cases h1 : minVal ≠ LLONG_MIN ∧ out < minVal
    · rw [if_pos h1]
      constructor
      · intro he
        simp at he
      · rintro ⟨he, hmin, _⟩
        simp only [Option.some.injEq] at he
        subst he
        omega
    · rw [if_neg h1]
      by_cases h2 : maxVal ≠ LLONG_MAX ∧ out > maxVal
      · rw [if_pos h2]
        constructor
        · intro he
          simp at he
        · rintro ⟨he, _, hmax⟩
          simp only [Option.some.injEq] at he
          subst he
          omega
      · rw [if_neg h2]
        constructor
        · intro he
          simp only [Option.some.injEq, Prod.mk.injEq, true_and] at he
          subst he
          refine ⟨rfl, ?_, ?_⟩
          · by_cases hm : minVal = LLONG_MIN
            · rw [hm]; exact hrange.1
            · by_contra hx; exact h1 ⟨hm, by omega⟩
          · by_cases hm : maxVal = LLONG_MAX
            · rw [hm]; exact hrange.2
            · by_contra hx; exact h2 ⟨hm, by omega⟩
        · rintro ⟨he, _, _⟩
          simp only [Option.some.injEq] at he
          subst he
          rfl

/-- C18. At a cursor `k` with a token, `readLongLongLimit` never fails an
assertion, moves the cursor to `k + 1`, and returns `REDISMODULE_OK` with
output `v` exactly when the token converts to the 64-bit integer `v` and
`minVal ≤ v ≤ maxVal`; with both bounds at the sentinels every converted value
is accepted. In particular `setMaxDocTableSize` accepts exactly the values
from 1 to `MAX_DOC_TABLE_SIZE`, both included, and stores them, and
`setTimeout` accepts 0. -/
theorem readLongLongLimit_inclusive (E : Externals) (argv : List String) (k : Nat)
    (tok : String) (ht : argv[k]? = some tok) :
    (∀ (minVal maxVal : Int),
      (∃ r, readLongLongLimit E argv k minVal maxVal = some (k + 1, r)) ∧
      ∀ v : Int, readLongLongLimit E argv k minVal maxVal = some (k + 1, some v) ↔
        RedisModule_StringToLongLong E tok = some v ∧ minVal ≤ v ∧ v ≤ maxVal) ∧
    (∀ v : Int, readLongLongLimit E argv k LLONG_MIN LLONG_MAX = some (k + 1, some v) ↔
      RedisModule_StringToLongLong E tok = some v) ∧
    (∀ (c : RSConfig) (v : Int), RedisModule_StringToLongLong E tok = some v →
      (1 ≤ v ∧ v ≤ E.MAX_DOC_TABLE_SIZE →
        setMaxDocTableSize E c argv k =
          some (REDISMODULE_OK, { c with maxDocTableSize := v }, k + 1)) ∧
      (¬ (1 ≤ v ∧ v ≤ E.MAX_DOC_TABLE_SIZE) →
        setMaxDocTableSize E c argv k = some (REDISMODULE_ERR, c, k + 1))) ∧
    (∀ c : RSConfig, RedisModule_StringToLongLong E tok = some 0 →
      setTimeout E c argv k = some (REDISMODULE_OK, { c with queryTimeoutMS := 0 }, k + 1)) := by
  refine ⟨fun minVal maxVal => ⟨readLongLongLimit_shape E argv k minVal maxVal tok ht,
    readLongLongLimit_ok_iff E argv k tok ht minVal maxVal⟩, ?_, ?_, ?_⟩
  · intro v
    rw [readLongLongLimit_ok_iff E argv k tok ht]
    constructor
    · exact fun h => h.1
    · exact fun h => ⟨h, (stringToLongLong_range h).1, (stringToLongLong_range h).2⟩
  · intro c v hv
    constructor
    · intro hb
      have hr := (readLongLongLimit_ok_iff E argv k tok ht 1 E.MAX_DOC_TABLE_SIZE v).2 ⟨hv, hb.1, hb.2⟩
      have hsz : toSizeT v = v := toSizeT_of_pos hb.1 (stringToLongLong_range hv).2
      simp [setMaxDocTableSize, hr, hsz]
    · intro hb
      obtain ⟨r, hr⟩ := readLongLongLimit_shape E argv k 1 E.MAX_DOC_TABLE_SIZE tok ht
      cases r with
      | none => simp [setMaxDocTableSize, hr]
      | some w =>
        have hw := (readLongLongLimit_ok_iff E argv k tok ht 1 E.MAX_DOC_TABLE_SIZE w).1 hr
        rw [hv] at hw
        simp only [Option.some.injEq] at hw
        obtain ⟨he, h1, h2⟩ := hw
        subst he
        exact absurd ⟨h1, h2⟩ hb
  · intro c hv
    have hr := (readLongLongLimit_ok_iff E argv k tok ht 0 LLONG_MAX 0).2 ⟨hv, le_refl _, by decide⟩
    simp [setTimeout, hr]

/-- Instance of C18 on the single token `0` with the sample host: `TIMEOUT`
accepts it and `MAXDOCTABLESIZE` rejects it. -/
theorem readLongLongLimit_inclusive_witness :
    ["0"][0]? = some "0" ∧
    setTimeout sampleHost sampleConfig ["0"] 0 =
      some (REDISMODULE_OK, { sampleConfig with queryTimeoutMS := 0 }, 0 + 1) ∧
    setMaxDocTableSize sampleHost sampleConfig ["0"] 0 =
      some (REDISMODULE_ERR, sampleConfig, 0 + 1) :=
  ⟨rfl,
    (readLongLongLimit_inclusive sampleHost ["0"] 0 "0" rfl).2.2.2 sampleConfig (by decide),
    ((readLongLongLimit_inclusive sampleHost ["0"] 0 "0" rfl).2.2.1 sampleConfig 0
      (by decide)).2 (by decide)⟩

/-! ## Termination and presence of the functions -/

/-- C19. On a table reached from the declared one, for every token list: the
`ReadConfig` loop, bounded to `argc` iterations, returns, so that it neither
needs more iterations nor fails an assertion nor reads a token outside `argv`;
every iteration that goes on has moved the cursor strictly forward and not
past `argc`; every setter of the table, called at a cursor within `argc`,
returns with the cursor not moved backwards and not past `argc`; and
`readLongLong` called at a cursor within `argc` passes its assertion and
leaves the cursor within `argc`. -/
theorem ReadConfig_terminates (E : Externals) (rsMinThreads : Bool) (g : Globals)
    (argv : List String) (hT : DeclaredTable E g.vars) :
    (∃ rc e g1,
      ReadConfigLoop argv argv.length
          { config := minThreadsOverride rsMinThreads g.config, vars := g.vars } 0 none =
        LoadResult.returned rc e g1 ∧
      ReadConfig rsMinThreads g argv = LoadResult.returned rc e g1) ∧
    (∀ (fuel : Nat) (g0 : Globals) (off : Nat) (err : Option String),
      DeclaredTable E g0.vars → off < argv.length →
      (∃ e g1, ReadConfigLoop argv (fuel + 1) g0 off err =
          LoadResult.returned REDISMODULE_ERR e g1) ∨
      ∃ g1 off1, off < off1 ∧ off1 ≤ argv.length ∧
        ReadConfigLoop argv (fuel + 1) g0 off err = ReadConfigLoop argv fuel g1 off1 err) ∧
    (∀ (d : RSConfigVar) (set : Setter) (c : RSConfig) (k : Nat),
      d ∈ RSGlobalConfigOptions E → d.setValue = some set → k ≤ argv.length →
      ∃ rc c1 k1, set c argv k = some (rc, c1, k1) ∧ k ≤ k1 ∧ k1 ≤ argv.length) ∧
    (∀ k : Nat, k ≤ argv.length →
      ∃ k1 r, readLongLong E argv k = some (k1, r) ∧ k ≤ k1 ∧ k1 ≤ argv.length) := by
  refine ⟨?_, ?_, ?_, ?_⟩
  · obtain ⟨_, rc, e, g1, h, _⟩ := loop_fuel E argv none argv.length argv.length
      { config := minThreadsOverride rsMinThreads g.config, vars := g.vars } 0 hT
      (by omega) (by omega)
    exact ⟨rc, e, g1, h, h⟩
  · intro fuel g0 off err hT0 hlt
    obtain ⟨tok, _, hc⟩ := loop_cases E argv g0 off err hT0 hlt
    rcases hc with ⟨_, hl⟩ | ⟨i, v, set, rc, c1, off1, _, _, _, _, ho1, ho2, _, hl⟩
    · exact Or.inl ⟨_, _, hl fuel⟩
    · by_cases hrc : rc ≠ REDISMODULE_OK
      · left
        exact ⟨_, _, by rw [hl fuel, if_pos hrc]⟩
      · right
        exact ⟨_, off1, by omega, ho2, by rw [hl fuel, if_neg hrc]⟩
  · intro d set c k hd hs hk
    obtain ⟨rc, c1, k1, h, h1, h2, _⟩ := (declared_setterSpec E d hd set hs).total c argv k hk
    exact ⟨rc, c1, k1, h, h1, h2⟩
  · intro k hk
    unfold readLongLong
    by_cases he : k = argv.length
    · exact ⟨k, none, by simp [he], le_refl _, hk⟩
    · have hlt : k < argv.length := by omega
      obtain ⟨tok, ht⟩ := getElem?_of_lt argv k hlt
      exact ⟨k + 1, RedisModule_StringToLongLong E tok, by simp [hk, he, ht], by omega, hlt⟩

/-- Instance of C19 on three tokens from the sample globals. -/
theorem ReadConfig_terminates_witness :
    DeclaredTable sampleHost sampleGlobals.vars ∧
    ∃ rc e g1,
      ReadConfigLoop ["NOGC", "TIMEOUT", "7"] ["NOGC", "TIMEOUT", "7"].length
          { config := minThreadsOverride false sampleGlobals.config,
            vars := sampleGlobals.vars } 0 none =
        LoadResult.returned rc e g1 ∧
      ReadConfig false sampleGlobals ["NOGC", "TIMEOUT", "7"] = LoadResult.returned rc e g1 :=
  ⟨declared_start sampleHost,
    (ReadConfig_terminates sampleHost false sampleGlobals ["NOGC", "TIMEOUT", "7"]
      (declared_start sampleHost)).1⟩

theorem bad_value_ne_read_only (a x : String) :
    a ++ ": Bad value" ≠ x ++ ": Option is read-only" := by
  intro h
  have hd := congrArg String.data h
  simp only [String.data_append] at hd
  have hh := congrArg (fun l => l.reverse.head?) hd
  simp at hh

theorem unknown_ne_read_only (a x : String) :
    "No such configuration option `" ++ a ++ "`" ≠ x ++ ": Option is read-only" := by
  intro h
  have hd := congrArg String.data h
  simp only [String.data_append] at hd
  have hh := congrArg (fun l => l.reverse.head?) hd
  simp at hh

/-- The messages a load on a table reached from the declared one can end
with. -/
theorem loop_message (E : Externals) (argv : List String) :
    ∀ (fuel : Nat) (g : Globals) (off : Nat) (rc : Int) (e : Option String) (g1 : Globals),
      DeclaredTable E g.vars → ReadConfigLoop argv fuel g off none = LoadResult.returned rc e g1 →
      e = none ∨ ∃ tok ∈ argv,
        e = some ("No such configuration option `" ++ RedisModule_StringPtrLen tok ++ "`") ∨
        e = some (RedisModule_StringPtrLen tok ++ ": Bad value") := by
  intro fuel
  induction fuel with
  | zero =>
    intro g off rc e g1 _ h
    by_cases hlt : off < argv.length
    · simp [ReadConfigLoop, hlt] at h
    · rw [loop_done argv 0 g off none hlt] at h
      simp only [LoadResult.returned.injEq] at h
      exact Or.inl h.2.1.symm
  | succ f ih =>
    intro g off rc e g1 hT h
    by_cases hlt : off < argv.length
    · obtain ⟨tok, ht, hc⟩ := loop_cases E argv g off none hT hlt
      have hmem : tok ∈ argv := List.getElem?_mem ht
      rcases hc with ⟨_, hl⟩ | ⟨i, v, set, rc1, c1, off1, _, _, _, _, _, _, _, hl⟩
      · rw [hl f] at h
        simp only [LoadResult.returned.injEq] at h
        exact Or.inr ⟨tok, hmem, Or.inl h.2.1.symm⟩
      · rw [hl f] at h
        by_cases hrc : rc1 ≠ REDISMODULE_OK
        · rw [if_pos hrc] at h
          simp only [LoadResult.returned.injEq] at h
          exact Or.inr ⟨tok, hmem, Or.inr h.2.1.symm⟩
        · rw [if_neg hrc] at h
          exact ih _ off1 rc e g1 (markModified_declared hT i) h
    · rw [loop_done argv (f + 1) g off none hlt] at h
      simp only [LoadResult.returned.injEq] at h
      exact Or.inl h.2.1.symm

/-- C20. Every descriptor of the declared table has a parser and a
serializer, and so has every descriptor `findConfigVar` returns on a table
reached from it. Hence on such a table `ReadConfig` ends with no message, the
unknown-option message or the bad-value message of some token, never with a
read-only message; `RSConfig_SetOption` at a cursor within the tokens and
`RSConfig_DumpProto` and `dumpConfigOption` always return, for every name and
configuration, without calling a NULL function. -/
theorem declared_functions_present (E : Externals) (vars : List RSConfigVar)
    (hT : DeclaredTable E vars) :
    (∀ d ∈ RSGlobalConfigOptions E,
      (∃ set, d.setValue = some set) ∧ ∃ get, d.getValue = some get) ∧
    (∀ (name : String) (i : Nat) (v : RSConfigVar), findConfigVar vars name = some (i, v) →
      (∃ set, v.setValue = some set) ∧ ∃ get, v.getValue = some get) ∧
    (∀ (rsMinThreads : Bool) (config : RSConfig) (argv : List String) (rc : Int)
      (e : Option String) (g1 : Globals),
      ReadConfig rsMinThreads { config := config, vars := vars } argv =
        LoadResult.returned rc e g1 →
      (e = none ∨ ∃ tok ∈ argv,
        e = some ("No such configuration option `" ++ RedisModule_StringPtrLen tok ++ "`") ∨
        e = some (RedisModule_StringPtrLen tok ++ ": Bad value")) ∧
      ∀ x : String, e ≠ some (x ++ ": Option is read-only")) ∧
    (∀ (config : RSConfig) (name : String) (argv : List String) (offset : Nat)
      (err : Option String), offset ≤ argv.length →
      ∃ r, RSConfig_SetOption config vars name argv offset err = some r) ∧
    (∀ (config : RSConfig) (name : String) (ctx : List Reply) (isHelp : Bool),
      ∃ out, RSConfig_DumpProto config vars name ctx isHelp = some out) ∧
    (∀ (config : RSConfig) (v : RSConfigVar) (ctx : List Reply) (isHelp : Bool), v ∈ vars →
      ∃ out, dumpConfigOption config v ctx isHelp = some out) := by
  have hget : ∀ v ∈ vars, ∃ get, v.getValue = some get := fun v hv =>
    let ⟨get, hg, _⟩ := declared_getter_mem hT hv
    ⟨get, hg⟩
  have hfound : ∀ (name : String) (i : Nat) (v : RSConfigVar),
      findConfigVar vars name = some (i, v) →
      (∃ set, v.setValue = some set) ∧ ∃ get, v.getValue = some get := by
    intro name i v h
    obtain ⟨hmem, _, _⟩ := declared_found hT h
    obtain ⟨set, hs⟩ := declared_hasSetter E _ hmem
    exact ⟨⟨set, hs⟩, hget v (findConfigVarFrom_mem name vars 0 i v h).1⟩
  refine ⟨fun d hd => ⟨declared_hasSetter E d hd, ?_⟩, hfound, ?_, ?_, ?_, ?_⟩
  · obtain ⟨get, hg, _⟩ := declared_getter E d hd
    exact ⟨get, hg⟩
  · intro rsMinThreads config argv rc e g1 h
    unfold ReadConfig at h
    have hm := loop_message E argv argv.length _ 0 rc e g1 hT h
    refine ⟨hm, fun x hx => ?_⟩
    rcases hm with hnone | ⟨tok, _, hu | hb⟩
    · rw [hnone] at hx; cases hx
    · rw [hu] at hx
      exact unknown_ne_read_only _ x (Option.some.inj hx)
    · rw [hb] at hx
      exact bad_value_ne_read_only _ x (Option.some.inj hx)
  · intro config name argv offset err hoff
    unfold RSConfig_SetOption
    cases hf : findConfigVar vars name with
    | none => exact ⟨_, rfl⟩
    | some p =>
      obtain ⟨i, v⟩ := p
      dsimp only
      by_cases himm : v.flags.test RSCONFIGVAR_F_IMMUTABLE = true
      · rw [if_pos himm]; exact ⟨_, rfl⟩
      · rw [if_neg himm]
        obtain ⟨⟨set, hs⟩, _⟩ := hfound name i v hf
        obtain ⟨_, hspec⟩ := setterShift_of_found hT hf hs
        obtain ⟨rc, c1, off1, hr, _⟩ := hspec.total config argv offset hoff
        rw [hs]
        dsimp only
        rw [hr]
        exact ⟨_, rfl⟩
  · intro config name ctx isHelp
    unfold RSConfig_DumpProto
    by_cases hstar : strcmpEq "*" name = true
    · simp only [hstar, if_true]
      rw [dumpAllOptions_eq config isHelp vars _ 0 hget]
      exact ⟨_, rfl⟩
    · simp only [hstar]
      cases hf : findConfigVar vars name with
      | none => exact ⟨_, rfl⟩
      | some p =>
        obtain ⟨i, v⟩ := p
        obtain ⟨_, ⟨get, hg⟩⟩ := hfound name i v hf
        dsimp only
        rw [dumpConfigOption_eq config v _ isHelp get hg]
        exact ⟨_, rfl⟩
  · intro config v ctx isHelp hv
    obtain ⟨get, hg⟩ := hget v hv
    exact ⟨_, dumpConfigOption_eq config v ctx isHelp get hg⟩

/-- Instance of C20 on the declared table of the sample host. -/
theorem declared_functions_present_witness :
    DeclaredTable sampleHost (RSGlobalConfigOptions sampleHost) ∧
    ∀ d ∈ RSGlobalConfigOptions sampleHost,
      (∃ set, d.setValue = some set) ∧ ∃ get, d.getValue = some get :=
  ⟨declared_start sampleHost,
    (declared_functions_present sampleHost (RSGlobalConfigOptions sampleHost)
      (declared_start sampleHost)).1⟩

/-! ## The sample host reads back printed integers -/

theorem digitValue_digitChar (m : Nat) (h : m < 10) :
    digitValue (Nat.digitChar m) = some m := by
  interval_cases m <;> rfl

theorem digitChar_ne (m : Nat) (h0 : 0 < m) (h : m < 10) :
    Nat.digitChar m ≠ '0' ∧ Nat.digitChar m ≠ '-' := by
  interval_cases m <;> decide

theorem toDigitsCore_decimal :
    ∀ (fuel n : Nat) (ds : List Char), n < fuel →
      ∃ xs, Nat.toDigitsCore 10 fuel n ds = xs ++ ds ∧ DecimalOf n xs := by
  intro fuel
  induction fuel with
  | zero => intro n ds h; omega
  | succ f ih =>
    intro n ds h
    simp only [Nat.toDigitsCore]
    by_cases h0 : n / 10 = 0
    · rw [if_pos h0]
      have hn : n < 10 := by omega
      have hmod : n % 10 = n := Nat.mod_eq_of_lt hn
      rw [hmod]
      refine ⟨[Nat.digitChar n], rfl, ?_, ?_, ?_⟩
      · intro acc rest
        simp [parseDigits, digitValue_digitChar n hn]
      · intro hz; subst hz; rfl
      · intro hpos
        exact ⟨_, [], rfl, digitChar_ne n hpos hn⟩
    · rw [if_neg h0]
      have hlt : n / 10 < f := by omega
      obtain ⟨xs, hxs, hdec, _, hhead⟩ := ih (n / 10) (Nat.digitChar (n % 10) :: ds) hlt
      refine ⟨xs ++ [Nat.digitChar (n % 10)], by rw [hxs]; simp, ?_, ?_, ?_⟩
      · intro acc rest
        have hm : n % 10 < 10 := Nat.mod_lt _ (by decide)
        rw [List.append_assoc, hdec]
        simp only [List.singleton_append, parseDigits, digitValue_digitChar _ hm,
          List.length_append, List.length_singleton, Nat.pow_succ]
        congr 1
        have hdm := Nat.div_add_mod n 10
        rw [← Nat.mul_assoc]
        generalize acc * 10 ^ xs.length = X
        omega
      · intro hz; subst hz; simp at h0
      · intro _
        obtain ⟨c, cs, hc, hne⟩ := hhead (by omega)
        exact ⟨c, cs ++ [Nat.digitChar (n % 10)], by rw [hc]; rfl, hne⟩

theorem toDigits_decimal (n : Nat) : DecimalOf n (Nat.toDigits 10 n) := by
  obtain ⟨xs, hxs, hdec⟩ := toDigitsCore_decimal (n + 1) n [] (Nat.lt_succ_self n)
  unfold Nat.toDigits
  rw [hxs, List.append_nil]
  exact hdec

theorem parseDigits_decimal (n : Nat) (xs : List Char) (h : DecimalOf n xs) :
    parseDigits xs 0 = some n := by
  have := h.1 0 []
  simpa [parseDigits] using this

theorem parseDecimal_nat (n : Nat) (s : String) (h : DecimalOf n s.data) :
    parseDecimal s = some (n : Int) := by
  have hp := parseDigits_decimal n s.data h
  rcases Nat.eq_zero_or_pos n with hz | hpos
  · subst hz
    have hd := h.2.1 rfl
    unfold parseDecimal
    rw [hd]
    rfl
  · obtain ⟨c, cs, hd, hc0, hcm⟩ := h.2.2 hpos
    rw [hd] at hp
    unfold parseDecimal
    rw [hd]
    split
    · rename_i heq; cases heq
    · rename_i heq
      simp only [List.cons.injEq] at heq
      exact absurd heq.1 hc0
    · rename_i heq
      simp only [List.cons.injEq] at heq
      exact absurd heq.1 hcm
    · rename_i c1 cs1 _ _ heq
      simp only [List.cons.injEq] at heq
      obtain ⟨h1, h2⟩ := heq
      subst h1
      subst h2
      rw [if_neg hc0, hp]
      rfl

theorem parseDecimal_neg (n : Nat) (s : String) (hpos : 0 < n) (xs : List Char)
    (hs : s.data = '-' :: xs) (h : DecimalOf n xs) :
    parseDecimal s = some (-(n : Int)) := by
  have hp := parseDigits_decimal n xs h
  obtain ⟨c, cs, hd, hc0, _⟩ := h.2.2 hpos
  rw [hd] at hp hs
  unfold parseDecimal
  rw [hs]
  split
  · rename_i heq; cases heq
  · rename_i heq
    simp only [List.cons.injEq] at heq
    exact absurd heq.1 (by decide)
  · rename_i c1 cs1 heq
    simp only [List.cons.injEq, true_and] at heq
    obtain ⟨h1, h2⟩ := heq
    subst h1
    subst h2
    rw [if_neg hc0, hp]
    rfl
  · rename_i c1 cs1 _ hno heq
    simp only [List.cons.injEq] at heq
    exact (hno c cs heq.1.symm heq.2.symm).elim

theorem parseDecimal_toString (v : Int) : parseDecimal (toString v) = some v := by
  cases v with
  | ofNat n => exact parseDecimal_nat n _ (toDigits_decimal n)
  | negSucc m =>
    have h := parseDecimal_neg (m + 1) (toString (Int.negSucc m)) (Nat.succ_pos m)
      (Nat.toDigits 10 (m + 1)) rfl (toDigits_decimal (m + 1))
    rw [h]
    rfl

/-! ## Round trip of a parsed value -/

theorem sampleHost_readsBack : HostReadsBack sampleHost :=
  ⟨fun v _ _ => parseDecimal_toString v, by decide, by decide⟩

theorem fmtLU_eq_fmtLLD (v : Int) (h0 : 0 ≤ v) (h1 : v ≤ LLONG_MAX) : fmtLU v = fmtLLD v := by
  have hm : v % SIZE_T_RANGE = v :=
    Int.emod_eq_of_lt h0 (by unfold LLONG_MAX at h1; unfold SIZE_T_RANGE; omega)
  unfold fmtLU fmtLLD
  rw [hm]
  obtain ⟨n, rfl⟩ := Int.eq_ofNat_of_zero_le h0
  rfl

theorem takeWhile_idem (p : Char → Bool) :
    ∀ l : List Char, (l.takeWhile p).takeWhile p = l.takeWhile p := by
  intro l
  induction l with
  | nil => rfl
  | cons c cs ih =>
    by_cases hc : p c = true
    · rw [List.takeWhile_cons, if_pos hc, List.takeWhile_cons, if_pos hc, ih]
    · rw [List.takeWhile_cons, if_neg hc]
      rfl

theorem cstr_idem (s : String) :
    RedisModule_StringPtrLen (RedisModule_StringPtrLen s) = RedisModule_StringPtrLen s := by
  unfold RedisModule_StringPtrLen
  simp only [takeWhile_idem]

theorem readsBack_stringToLongLong {E : Externals} (hH : HostReadsBack E) (v : Int)
    (h0 : LLONG_MIN ≤ v) (h1 : v ≤ LLONG_MAX) :
    RedisModule_StringToLongLong E (fmtLLD v) = some v := by
  unfold RedisModule_StringToLongLong
  rw [hH.1 v h0 h1]
  simp [h0, h1]

theorem numericSetter_success (E : Externals) (minVal maxVal : Int)
    (store : RSConfig → Int → RSConfig) (c0 c : RSConfig) (argv : List String) (k k1 : Nat)
    (h : numericSetter E minVal maxVal store c0 argv k = some (REDISMODULE_OK, c, k1)) :
    ∃ tok v, argv[k]? = some tok ∧ RedisModule_StringToLongLong E tok = some v ∧
      minVal ≤ v ∧ v ≤ maxVal ∧ c = store c0 v := by
  by_cases hlt : k < argv.length
  · obtain ⟨tok, ht⟩ := getElem?_of_lt argv k hlt
    obtain ⟨r, hr⟩ := readLongLongLimit_shape E argv k minVal maxVal tok ht
    cases r with
    | none =>
      unfold numericSetter at h
      rw [hr] at h
      simp [REDISMODULE_OK, REDISMODULE_ERR] at h
    | some v =>
      obtain ⟨hp, hlo, hhi⟩ := (readLongLongLimit_ok_iff E argv k tok ht minVal maxVal v).1 hr
      unfold numericSetter at h
      rw [hr] at h
      simp only [Option.some.injEq, Prod.mk.injEq, true_and] at h
      exact ⟨tok, v, ht, hp, hlo, hhi, h.1.symm⟩
  · unfold numericSetter readLongLongLimit readLongLong at h
    by_cases hle : k ≤ argv.length
    · have he : k = argv.length := by omega
      simp [he, REDISMODULE_OK, REDISMODULE_ERR] at h
    · simp [hle] at h

theorem numericSetter_roundtrip (E : Externals) (hH : HostReadsBack E) (minVal maxVal : Int)
    (store : RSConfig → Int → RSConfig) (get : Getter)
    (hget : ∀ (c : RSConfig) (v : Int), minVal ≤ v → LLONG_MIN ≤ v → v ≤ LLONG_MAX →
      get (store c v) = some (fmtLLD v))
    (hidem : ∀ (c : RSConfig) (v : Int), store (store c v) v = store c v)
    (c0 c : RSConfig) (argv : List String) (k k1 : Nat)
    (h : numericSetter E minVal maxVal store c0 argv k = some (REDISMODULE_OK, c, k1)) :
    ∃ s, get c = some s ∧
      numericSetter E minVal maxVal store c [s] 0 = some (REDISMODULE_OK, c, 1) := by
  obtain ⟨tok, v, _, hp, hlo, hhi, hc⟩ := numericSetter_success E minVal maxVal store c0 c argv
    k k1 h
  obtain ⟨hr0, hr1⟩ := stringToLongLong_range hp
  subst hc
  refine ⟨fmtLLD v, hget c0 v hlo hr0 hr1, ?_⟩
  have hr := (readLongLongLimit_ok_iff E [fmtLLD v] 0 (fmtLLD v) rfl minVal maxVal v).2
    ⟨readsBack_stringToLongLong hH v hr0 hr1, hlo, hhi⟩
  unfold numericSetter
  rw [hr]
  simp [hidem]

theorem pathSetter_roundtrip (store : RSConfig → String → RSConfig) (get : Getter)
    (hget : ∀ (c : RSConfig) (p : String), get (store c p) = some p)
    (hidem : ∀ (c : RSConfig) (p : String), store (store c p) p = store c p)
    (c0 c : RSConfig) (argv : List String) (k k1 : Nat)
    (h : pathSetter store c0 argv k = some (REDISMODULE_OK, c, k1)) :
    ∃ s, get c = some s ∧ pathSetter store c [s] 0 = some (REDISMODULE_OK, c, 1) := by
  unfold pathSetter at h
  by_cases he : k = argv.length
  · simp [he, REDISMODULE_OK, REDISMODULE_ERR] at h
  · simp only [he, if_false] at h
    cases hx : argv[k]? with
    | none => rw [hx] at h; cases h
    | some tok =>
      rw [hx] at h
      simp only [Option.some.injEq, Prod.mk.injEq, true_and] at h
      obtain ⟨hc, _⟩ := h
      subst hc
      refine ⟨RedisModule_StringPtrLen tok, hget c0 _, ?_⟩
      simp [pathSetter, cstr_idem, hidem]

theorem strcasecmp_fail_not_return (x : String) (h : strcasecmpEq x "FAIL" = true) :
    strcasecmpEq x "RETURN" = false := by
  unfold strcasecmpEq at h ⊢
  simp only [decide_eq_true_eq] at h
  rw [h]
  decide

theorem setOnTimeout_roundtrip (E : Externals) (hH : HostReadsBack E) (c : RSConfig) :
    ∃ s, getOnTimeout E c = some s ∧ setOnTimeout c [s] 0 = some (REDISMODULE_OK, c, 1) := by
  refine ⟨E.TimeoutPolicy_ToString c.timeoutPolicy, rfl, ?_⟩
  rw [setOnTimeout_at c [E.TimeoutPolicy_ToString c.timeoutPolicy] 0
    (E.TimeoutPolicy_ToString c.timeoutPolicy) rfl]
  cases hp : c.timeoutPolicy with
  | TimeoutPolicy_Return =>
    rw [if_pos hH.2.1]
    have hc : { c with timeoutPolicy := TimeoutPolicy_Return } = c := by rw [← hp]
    rw [hc]
  | TimeoutPolicy_Fail =>
    have hnot := strcasecmp_fail_not_return _ hH.2.2
    rw [if_neg (by rw [hnot]; simp), if_pos hH.2.2]
    have hc : { c with timeoutPolicy := TimeoutPolicy_Fail } = c := by rw [← hp]
    rw [hc]

theorem fmtLU_toSizeT (v : Int) (h0 : 1 ≤ v) (h1 : v ≤ LLONG_MAX) :
    fmtLU (toSizeT v) = fmtLLD v := by
  rw [toSizeT_of_pos h0 h1]
  exact fmtLU_eq_fmtLLD v (by omega) h1

theorem setExtLoad_roundtrip (c0 c : RSConfig) (argv : List String) (k k1 : Nat)
    (h : setExtLoad c0 argv k = some (REDISMODULE_OK, c, k1)) :
    ∃ s, getExtLoad c = some s ∧ setExtLoad c [s] 0 = some (REDISMODULE_OK, c, 1) := by
  have hle : k ≤ argv.length := by
    by_contra hx
    have hge : k ≥ argv.length := by omega
    simp [setExtLoad, hge, REDISMODULE_OK, REDISMODULE_ERR] at h
  rw [setExtLoad_eq c0 argv k hle] at h
  obtain ⟨s, hs, hset⟩ := pathSetter_roundtrip (fun c p => { c with extLoad := some p })
    getExtLoad (fun _ _ => rfl) (fun _ _ => rfl) c0 c argv k k1 h
  exact ⟨s, hs, by rw [setExtLoad_eq c [s] 0 (Nat.zero_le _)]; exact hset⟩

/-- C11. Given a host whose conversion reads back a printed integer and whose
`TimeoutPolicy_ToString` names a policy by its literal: for every descriptor of
the declared table without the boolean-flag bit, these being the eleven
options that take a value, and every configuration `c` that a successful call
of its parser leaves, the serializer yields a string `s`, not NULL, and the
same parser on the single token `s` at cursor 0 returns `REDISMODULE_OK` and
leaves exactly `c`. -/
theorem serialize_then_parse (E : Externals) (hH : HostReadsBack E) :
    ((RSGlobalConfigOptions E).filter (fun d => !d.flags.test RSCONFIGVAR_F_FLAG)).map
        (fun d => d.name) =
      ["EXTLOAD", "MINPREFIX", "MAXDOCTABLESIZE", "MAXEXPANSIONS", "TIMEOUT", "INDEX_THREADS",
        "SEARCH_THREADS", "FRISOINI", "ON_TIMEOUT", "GCSCANSIZE", "MIN_PHONETIC_TERM_LEN"] ∧
    ∀ (d : RSConfigVar) (set : Setter) (get : Getter) (c0 c : RSConfig) (argv : List String)
      (k k1 : Nat), d ∈ RSGlobalConfigOptions E → d.flags.test RSCONFIGVAR_F_FLAG = false →
      d.setValue = some set → d.getValue = some get →
      set c0 argv k = some (REDISMODULE_OK, c, k1) →
      ∃ s, get c = some s ∧ set c [s] 0 = some (REDISMODULE_OK, c, 1) := by
  refine ⟨rfl, ?_⟩
  intro d set get c0 c argv k k1 hd hflag hs hg h
  simp only [RSGlobalConfigOptions, List.mem_cons, List.mem_singleton, List.not_mem_nil,
    or_false] at hd
  rcases hd with hh | hh | hh | hh | hh | hh | hh | hh | hh | hh | hh | hh | hh <;>
    (subst hh; simp only [Option.some.injEq] at hs hg; subst hs; subst hg)
  · exact setExtLoad_roundtrip c0 c argv k k1 h
  · exact absurd hflag (by decide)
  · exact absurd hflag (by decide)
  · rw [setMinPrefix_eq] at h ⊢
    exact numericSetter_roundtrip E hH 1 LLONG_MAX
      (fun c v => { c with minTermPrefix := v }) getMinPrefix
      (fun _ _ _ _ _ => rfl) (fun _ _ => rfl) c0 c argv k k1 h
  · rw [setMaxDocTableSize_eq] at h ⊢
    exact numericSetter_roundtrip E hH 1 E.MAX_DOC_TABLE_SIZE
      (fun c v => { c with maxDocTableSize := toSizeT v }) getMaxDocTableSize
      (fun _ v h0 _ h1 => congrArg some (fmtLU_toSizeT v h0 h1)) (fun _ _ => rfl) c0 c argv k k1 h
  · rw [setMaxExpansions_eq] at h ⊢
    exact numericSetter_roundtrip E hH 1 LLONG_MAX
      (fun c v => { c with maxPrefixExpansions := v }) getMaxExpansions
      (fun _ v h0 _ h1 => congrArg some (fmtLU_eq_fmtLLD v (by omega) h1)) (fun _ _ => rfl) c0 c argv k k1 h
  · rw [setTimeout_eq] at h ⊢
    exact numericSetter_roundtrip E hH 0 LLONG_MAX
      (fun c v => { c with queryTimeoutMS := v }) getTimeout
      (fun _ _ _ _ _ => rfl) (fun _ _ => rfl) c0 c argv k k1 h
  · rw [setIndexThreads_eq] at h ⊢
    exact numericSetter_roundtrip E hH 1 LLONG_MAX
      (fun c v => { c with indexPoolSize := toSizeT v, poolSizeNoAuto := 1 }) getIndexthreads
      (fun _ v h0 _ h1 => congrArg some (fmtLU_toSizeT v h0 h1)) (fun _ _ => rfl) c0 c argv k k1 h
  · rw [setSearchThreads_eq] at h ⊢
    exact numericSetter_roundtrip E hH 1 LLONG_MAX
      (fun c v => { c with searchPoolSize := toSizeT v, poolSizeNoAuto := 1 }) getSearchThreads
      (fun _ v h0 _ h1 => congrArg some (fmtLU_toSizeT v h0 h1)) (fun _ _ => rfl) c0 c argv k k1 h
  · rw [setFrisoINI_eq] at h ⊢
    exact pathSetter_roundtrip (fun c p => { c with frisoIni := some p }) getFrisoINI
      (fun _ _ => rfl) (fun _ _ => rfl) c0 c argv k k1 h
  · exact setOnTimeout_roundtrip E hH c
  · rw [setGcScanSize_eq] at h ⊢
    exact numericSetter_roundtrip E hH 1 LLONG_MAX
      (fun c v => { c with gcScanSize := toSizeT v }) getGcScanSize
      (fun _ v h0 _ h1 => congrArg some (fmtLU_toSizeT v h0 h1)) (fun _ _ => rfl) c0 c argv k k1 h
  · rw [setMinPhoneticTermLen_eq] at h ⊢
    exact numericSetter_roundtrip E hH 1 LLONG_MAX
      (fun c v => { c with minPhoneticTermLen := toSizeT v }) getMinPhoneticTermLen
      (fun _ v h0 _ h1 => congrArg some (fmtLU_toSizeT v h0 h1)) (fun _ _ => rfl) c0 c argv k k1 h

/-- Instance of C11 with the sample host, which reads back every printed
integer, for `MAXDOCTABLESIZE` set from the token `5000`. -/
theorem serialize_then_parse_witness :
    HostReadsBack sampleHost ∧
    (RSConfigVar.mk "MAXDOCTABLESIZE" "Maximum runtime document table size (for this process)"
      (some (setMaxDocTableSize sampleHost)) (some getMaxDocTableSize)
      RSCONFIGVAR_F_IMMUTABLE) ∈ RSGlobalConfigOptions sampleHost ∧
    RSCONFIGVAR_F_IMMUTABLE.test RSCONFIGVAR_F_FLAG = false ∧
    setMaxDocTableSize sampleHost sampleConfig ["5000"] 0 =
      some (REDISMODULE_OK, { sampleConfig with maxDocTableSize := 5000 }, 1) ∧
    ∃ s, getMaxDocTableSize { sampleConfig with maxDocTableSize := 5000 } = some s ∧
      setMaxDocTableSize sampleHost { sampleConfig with maxDocTableSize := 5000 } [s] 0 =
        some (REDISMODULE_OK, { sampleConfig with maxDocTableSize := 5000 }, 1) :=
  ⟨sampleHost_readsBack, by simp [RSGlobalConfigOptions], rfl, by decide,
    (serialize_then_parse sampleHost sampleHost_readsBack).2
      (RSConfigVar.mk "MAXDOCTABLESIZE" "Maximum runtime document table size (for this process)"
        (some (setMaxDocTableSize sampleHost)) (some getMaxDocTableSize)
        RSCONFIGVAR_F_IMMUTABLE)
      (setMaxDocTableSize sampleHost) getMaxDocTableSize sampleConfig
      { sampleConfig with maxDocTableSize := 5000 } ["5000"] 0 1
      (by simp [RSGlobalConfigOptions]) rfl rfl rfl (by decide)⟩

end RediSearch
